import Mathlib

/-!
Shallow embedding of the quote-resolution and caching layer of the
portfolio-website repository (`src/api/twelve.js`, the final multi-provider
version: Marketstack / Finnhub / Alpha Vantage with mock fallback).

Conventions of the embedding:
* Times are `Nat` milliseconds (the JS `Date.now()` clock); each call to a
  resolver is modelled at a single instant `t`.
* JS numbers that can be non-finite (raw provider response fields, which in
  JS arise from `Number(...)` coercion of arbitrary JSON values) are
  modelled by `JsNum`; values the code has already coerced finite are `ℚ`.
* Network behaviour is an oracle carried in `Config`: for each provider the
  oracle returns either the parsed JSON body (`Except.ok`) or the message of
  the exception raised by `getJSON` (`Except.error`, covering HTTP failures
  and body-level error fields).  The JS `Number(string)`, `String(number)`
  and `Date#toISOString` coercions, which no claim depends on, are carried
  as uninterpreted function parameters in `Config`.
* `localStorage` is modelled as two typed stores (quote keys and series
  keys have disjoint prefixes `quote:` / `series:`); durable writes always
  succeed (quota eviction is outside every claim).
* Each resolver returns, besides its result and the updated state, the list
  of provider HTTP requests it performed (`log`), whether it answered from
  cache (`hit`), whether it wrote the cache (`wrote`), whether the outer
  catch ran (`failed`), and the messages passed to `setError` (`errMsgs`).
-/

namespace Twelve

/-! ### Kernel-reducible string primitives

Core `String` functions such as `toUpper`, `trim`, `endsWith` and
`splitOn` are defined by well-founded recursion and do not reduce inside
the kernel, so the model re-implements the few JS string operations it
needs structurally over `String.data`. -/

/-- Leading/trailing-whitespace strip of a character list (JS
`String#trim` on the ASCII whitespace the code encounters). -/
def trimList (l : List Char) : List Char :=
  ((l.dropWhile Char.isWhitespace).reverse.dropWhile Char.isWhitespace).reverse

/-- Tests whether `pat` occurs at the head of `l`. -/
def leadsWith : List Char → List Char → Bool
  | [], _ => true
  | _ :: _, [] => false
  | a :: as, b :: bs => a = b && leadsWith as bs

/-- JS `s.endsWith(pat)`. -/
def strEndsWith (s pat : String) : Bool :=
  decide (pat.data = s.data.drop (s.data.length - pat.data.length))

/-- Tests whether `pat` occurs somewhere in `l` (JS `String#includes`). -/
def containsSub (l pat : List Char) : Bool :=
  match l with
  | [] => decide (pat = [])
  | _ :: tl => leadsWith pat l || containsSub tl pat

/-- Replace the first occurrence of `pat` by `rep` (JS `String#replace`
with a string pattern). -/
def replaceFirstL (l pat rep : List Char) : List Char :=
  match l with
  | [] => []
  | c :: tl =>
    if leadsWith pat (c :: tl) then rep ++ (c :: tl).drop pat.length
    else c :: replaceFirstL tl pat rep

/-- JS `s.replace(pat, rep)` (first occurrence only). -/
def replaceFirst (s pat rep : String) : String :=
  ⟨replaceFirstL s.data pat.data rep.data⟩

/-- A JavaScript number: a finite rational, `NaN`, or a signed infinity. -/
inductive JsNum where
  | num (q : ℚ)
  | nan
  | inf
  | ninf
deriving DecidableEq

/-- JS `Number.isFinite(x)`. -/
def JsNum.isFinite : JsNum → Bool
  | .num _ => true
  | _ => false

/-- JS truthiness of a number (`0`, `-0` and `NaN` are falsy). -/
def JsNum.truthy : JsNum → Bool
  | .num q => decide (q ≠ 0)
  | .nan => false
  | _ => true

/-- The rational carried by a finite `JsNum` (callers check `isFinite` first). -/
def JsNum.toQ : JsNum → ℚ
  | .num q => q
  | _ => 0

/-- The coercion `Number.isFinite(x) ? x : 0` that the adapters apply. -/
def JsNum.coerced (n : JsNum) : ℚ :=
  if n.isFinite then n.toQ else 0

/-- JS `x || fallback` on an already-finite number (falsy iff zero). -/
def jsOr (q fallback : ℚ) : ℚ :=
  if q = 0 then fallback else q

/-- JS `x || 0` on a raw JS number (`NaN` and `±0` are falsy). -/
def jsNumOrZero (n : JsNum) : JsNum :=
  if n.truthy then n else .num 0

/-- Canonical quote record `{price, previous_close, change_percent}`. -/
structure Quote where
  price : ℚ
  previous_close : ℚ
  change_percent : Option ℚ
deriving DecidableEq

/-- One point of a canonical series: `{datetime, close}` (both strings). -/
structure SeriesPoint where
  datetime : String
  close : String
deriving DecidableEq

/-- Canonical series record `{values}`. -/
structure Series where
  values : List SeriesPoint
deriving DecidableEq

/-- The three upstream providers. -/
inductive Provider where
  | ms
  | fh
  | av
deriving DecidableEq

/-- Kind of upstream request. -/
inductive ReqKind where
  | quote
  | series
deriving DecidableEq

/-- One HTTP request to a provider (the symbol as sent on the wire). -/
structure Req where
  provider : Provider
  kind : ReqKind
  symbol : String
deriving DecidableEq

/-- The `apiState` singleton: process-wide error record. -/
structure ApiState where
  lastError : Option String
  lastErrorAt : ℕ
  invalidKey : Bool
deriving DecidableEq

/-- A cache entry `{ data, exp }` with absolute expiry time in ms. -/
structure Entry (α : Type) where
  data : α
  exp : ℕ
deriving DecidableEq

/-- String-keyed map (JS `Map` / the JSON records held in `localStorage`).
`set` prepends and `get?` returns the first binding, so a later `set`
shadows an earlier one; the code never deletes keys. -/
abbrev SMap (α : Type) := List (String × α)

/-- Lookup of the current binding of `k`. -/
def SMap.get? (m : SMap α) (k : String) : Option α :=
  (List.find? (fun p => p.1 = k) m).map Prod.snd

/-- JS `map.set(k, v)` (shadowing update). -/
def SMap.set (m : SMap α) (k : String) (v : α) : SMap α :=
  (k, v) :: m

/-- The mutable module state: the two in-memory maps (`mem.quotes`,
`mem.series`), the durable tier split by key prefix, `apiState`, and the
`validated` flag of `validateKeyOnce`. -/
structure St where
  memQuotes : SMap (Entry Quote)
  memSeries : SMap (Entry Series)
  lsQuotes : SMap (Entry Quote)
  lsSeries : SMap (Entry Series)
  api : ApiState
  validated : Bool
deriving DecidableEq

/-- The constant `QUOTE_TTL_MS = 24 * 60 * 60 * 1000`. -/
def QUOTE_TTL_MS : ℕ := 24 * 60 * 60 * 1000

/-- The constant `SERIES_TTL_MS = 24 * 60 * 60 * 1000`. -/
def SERIES_TTL_MS : ℕ := 24 * 60 * 60 * 1000

/-- The function `setError(msg)`: sets `lastError` to `String(msg || "Unknown error")`
and stamps `lastErrorAt`; never touches `invalidKey`. -/
def setError (a : ApiState) (t : ℕ) (msg : String) : ApiState :=
  { a with
    lastError := some (if msg = "" then "Unknown error" else msg)
    lastErrorAt := t }

/-- JS `String(apiState.lastError)` (JS renders `null` as `"null"`). -/
def lastErrStr (a : ApiState) : String :=
  match a.lastError with
  | some m => m
  | none => "null"

/-- JS `s.toLowerCase().includes("invalid api key")`. -/
def mentionsInvalidKey (s : String) : Bool :=
  containsSub (s.data.map Char.toLower) "invalid api key".data

/-- The catch-block mutation: `setError(msg)` followed by
`if (String(apiState.lastError).toLowerCase().includes("invalid api key"))
apiState.invalidKey = true`. -/
def applyError (a : ApiState) (t : ℕ) (msg : String) : ApiState :=
  let a1 := setError a t msg
  if mentionsInvalidKey (lastErrStr a1) then { a1 with invalidKey := true } else a1

/-- The function `readLS(key)`: returns the stored value unless the entry is missing,
has a falsy `exp` (0), or `exp < now()`.  Note the expiry test is strict,
so the value is still returned at `now() == exp`. -/
def readLS (store : SMap (Entry α)) (t : ℕ) (key : String) : Option α :=
  match SMap.get? store key with
  | none => none
  | some e => if e.exp = 0 ∨ e.exp < t then none else some e.data

/-- The function `writeLS(key, data, ttlMs)` (quota failures are outside every claim,
so the write always succeeds in the model). -/
def writeLS (store : SMap (Entry α)) (t : ℕ) (key : String) (data : α) (ttl : ℕ) :
    SMap (Entry α) :=
  SMap.set store key ⟨data, t + ttl⟩

/-- The function `readCache(map, key)`: memory tier first (`m.exp > now()`), then
`readLS`, rehydrating the memory tier with a 500 ms re-expiry on a durable
hit.  Returns the value and the (possibly updated) memory map. -/
def readCache (map store : SMap (Entry α)) (t : ℕ) (key : String) :
    Option α × SMap (Entry α) :=
  let fromLS : Option α × SMap (Entry α) :=
    match readLS store t key with
    | some ls => (some ls, SMap.set map key ⟨ls, t + 500⟩)
    | none => (none, map)
  match SMap.get? map key with
  | some m => if t < m.exp then (some m.data, map) else fromLS
  | none => fromLS

/-- The function `writeCache(map, key, data, ttlMs)`: writes both tiers with
`exp = now() + ttlMs`.  Returns (memory map, durable store). -/
def writeCache (map store : SMap (Entry α)) (t : ℕ) (key : String) (data : α)
    (ttl : ℕ) : SMap (Entry α) × SMap (Entry α) :=
  (SMap.set map key ⟨data, t + ttl⟩, writeLS store t key data ttl)

/-! ### Mock data (`src/mock.js` and the `loadMock` wrapper) -/

/-- One row of the `mockQuote` table. -/
structure MockQ where
  price : ℚ
  prevClose : ℚ

/-- The `mockQuote` table of `src/mock.js`. -/
def mockQuoteTable : String → Option MockQ
  | "AAPL" => some ⟨mkRat 5753 25, mkRat 5696 25⟩
  | "MSFT" => some ⟨mkRat 8411 20, mkRat 4181 10⟩
  | "AC.TO" => some ⟨mkRat 49 2, mkRat 243 10⟩
  | _ => none

/-- The function `mock.quote(sym)`: `mockQuote?.[sym] || {}` then
`Number(s.price) || 0` / `Number(s.prevClose) || 0`.  The returned object
has no `change_percent` field (modelled as `none`). -/
def mockQuoteFn (sym : String) : Quote :=
  match mockQuoteTable sym with
  | some s => ⟨jsOr s.price 0, jsOr s.prevClose 0, none⟩
  | none => ⟨0, 0, none⟩

/-- The date key `String(i+1).padStart(2, "0")` prefixed by `"2025-09-"`. -/
def mockDate (i : ℕ) : String :=
  "2025-09-" ++ (if i + 1 < 10 then "0" ++ toString (i + 1) else toString (i + 1))

/-- One of the three generated 30-point mock series. -/
def mkMockSeries (base step : ℚ) : List (String × ℚ) :=
  (List.range 30).map (fun i => (mockDate i, base + i * step))

/-- The `mockSeries` table of `src/mock.js`. -/
def mockSeriesTable : String → Option (List (String × ℚ))
  | "AAPL" => some (mkMockSeries 220 (mkRat 2 5))
  | "MSFT" => some (mkMockSeries 410 (mkRat 7 20))
  | "AC.TO" => some (mkMockSeries (mkRat 47 2) (mkRat 1 20))
  | _ => none

/-- JS `arr.slice(-n)` for a natural `n`: the last `n` elements, except
that `slice(-0)` is `slice(0)`, the whole array. -/
def jsSliceLast (l : List α) (n : ℕ) : List α :=
  if n = 0 then l else l.drop (l.length - n)

/-! ### Provider response shapes and the network oracle -/

/-- One EOD bar of a Marketstack response.  The numeric fields model the
values the adapter reads after `Number(...)` coercion. -/
structure MsBar where
  date : String
  close : JsNum
  openPrice : JsNum
deriving DecidableEq

/-- A parsed Marketstack `/eod` body: `error` models a truthy `j.error`
field (carrying its message), `data = none` models a missing or non-array
`data` field. -/
structure MsResp where
  error : Option String
  data : Option (List MsBar)

/-- A parsed Finnhub `/quote` body: `{c, pc, dp}` post `Number` coercion. -/
structure FhQuoteResp where
  c : JsNum
  pc : JsNum
  dp : JsNum

/-- A parsed Finnhub `/stock/candle` body; `t`/`c` are `none` when the
field is missing or not an array. -/
structure FhCandleResp where
  s : String
  t : Option (List Int)
  c : Option (List JsNum)

/-- The relevant part of an Alpha Vantage `GLOBAL_QUOTE` object: the three
fields post `Number(...)` coercion (`changePercent` after stripping `%`). -/
structure AvGq where
  price : JsNum
  previousClose : JsNum
  changePercent : JsNum

/-- A parsed Alpha Vantage quote body: `rateLimited` models a truthy
`Information`/`Note` field, `globalQuote = none` a missing or empty
`"Global Quote"` object. -/
structure AvQuoteResp where
  rateLimited : Bool
  globalQuote : Option AvGq

/-- A parsed Alpha Vantage daily-series body: the `"Time Series (Daily)"`
object as an ordered list of (date key, `"4. close"` string); `[]` models a
missing or empty object. -/
structure AvSeriesResp where
  rateLimited : Bool
  series : List (String × String)

/-- Static configuration (the `VITE_*` keys) together with the network
oracle: what each provider endpoint returns for a given wire symbol.
`Except.error` carries the message of the exception `getJSON` raises
(HTTP failure or body-level error field).  The last three fields carry the
JS string/number coercions the series code applies, uninterpreted. -/
structure Config where
  keyMS : String
  keyFH : String
  keyAV : String
  msQuoteResp : String → Except String MsResp
  fhQuoteResp : String → Except String FhQuoteResp
  avQuoteResp : String → Except String AvQuoteResp
  msSeriesResp : String → ℕ → Except String MsResp
  fhSeriesResp : String → Except String FhCandleResp
  avSeriesResp : String → Except String AvSeriesResp
  numToStr : JsNum → String
  parseNum : String → JsNum
  tsToDateStr : Int → String

/-! ### Provider adapters -/

/-- The adapter `msFetchQuote(sym)`: Marketstack EOD with `limit=2`; throws when the key
is missing, on a truthy `error` field, or on a missing/empty `data` array;
otherwise `data[0]` is today and `data[1]` (else today's open) the previous
close.  Returns the requests performed and the outcome. -/
def msFetchQuote (cfg : Config) (sym : String) : List Req × Except String Quote :=
  if cfg.keyMS = "" then ([], .error "Marketstack key missing")
  else
    let marketstackSym := replaceFirst sym ".TO" ".XTSE"
    let req : Req := ⟨.ms, .quote, marketstackSym⟩
    match cfg.msQuoteResp marketstackSym with
    | .error e => ([req], .error e)
    | .ok j =>
      match j.error with
      | some e => ([req], .error e)
      | none =>
        match j.data with
        | none => ([req], .error ("Symbol " ++ sym ++ " not found on Marketstack - empty data array"))
        | some [] => ([req], .error ("Symbol " ++ sym ++ " not found on Marketstack - empty data array"))
        | some (today :: rest) =>
          let price := today.close
          let pc : JsNum :=
            match rest with
            | yesterday :: _ => yesterday.close
            | [] => today.openPrice
          let changePercent : Option ℚ :=
            match price, pc with
            | .num p, .num c => if 0 < c then some ((p - c) / c * 100) else none
            | _, _ => none
          ([req], .ok ⟨price.coerced, pc.coerced, changePercent⟩)

/-- The adapter `msFetchSeries(sym, output)`: Marketstack EOD with `limit=output`;
throws like the quote variant; reverses the newest-first bars and keeps the
date part before `"T"`. -/
def msFetchSeries (cfg : Config) (sym : String) (output : ℕ) :
    List Req × Except String Series :=
  if cfg.keyMS = "" then ([], .error "Marketstack key missing")
  else
    let marketstackSym := replaceFirst sym ".TO" ".XTSE"
    let req : Req := ⟨.ms, .series, marketstackSym⟩
    match cfg.msSeriesResp marketstackSym output with
    | .error e => ([req], .error e)
    | .ok j =>
      match j.error with
      | some e => ([req], .error e)
      | none =>
        match j.data with
        | none => ([req], .error ("No historical data from Marketstack for " ++ sym))
        | some [] => ([req], .error ("No historical data from Marketstack for " ++ sym))
        | some bars =>
          let vals := bars.reverse.map (fun v =>
            SeriesPoint.mk ⟨v.date.data.takeWhile (fun c => c ≠ 'T')⟩ (cfg.numToStr v.close))
          ([req], .ok ⟨vals⟩)

/-- The adapter `fhFetchQuote(sym)`: Finnhub quote; `c`/`pc`/`dp` coerced finite-or-zero
(`dp` to `null` when not finite). -/
def fhFetchQuote (cfg : Config) (sym : String) : List Req × Except String Quote :=
  if cfg.keyFH = "" then ([], .error "Finnhub key missing")
  else
    let req : Req := ⟨.fh, .quote, sym⟩
    match cfg.fhQuoteResp sym with
    | .error e => ([req], .error e)
    | .ok j =>
      ([req], .ok ⟨j.c.coerced, j.pc.coerced,
        if j.dp.isFinite then some j.dp.toQ else none⟩)

/-- The adapter `fhFetchSeries(sym, output)`: Finnhub candles; a malformed body yields
an **empty** series (not an exception); otherwise one point per timestamp,
sliced to the last `output`. -/
def fhFetchSeries (cfg : Config) (sym : String) (output : ℕ) :
    List Req × Except String Series :=
  if cfg.keyFH = "" then ([], .error "Finnhub key missing")
  else
    let req : Req := ⟨.fh, .series, sym⟩
    match cfg.fhSeriesResp sym with
    | .error e => ([req], .error e)
    | .ok j =>
      match j.t, j.c with
      | some ts, some cs =>
        if j.s = "ok" then
          let vals := ts.enum.map (fun p =>
            SeriesPoint.mk (cfg.tsToDateStr p.2) (cfg.numToStr (cs.getD p.1 .nan)))
          ([req], .ok ⟨jsSliceLast vals output⟩)
        else ([req], .ok ⟨[]⟩)
      | _, _ => ([req], .ok ⟨[]⟩)

/-- The adapter `avFetchQuote(sym)`: Alpha Vantage GLOBAL_QUOTE; throws on a rate-limit
note or a missing/empty `"Global Quote"` object. -/
def avFetchQuote (cfg : Config) (sym : String) : List Req × Except String Quote :=
  if cfg.keyAV = "" then ([], .error "Alpha Vantage key missing")
  else
    let req : Req := ⟨.av, .quote, sym⟩
    match cfg.avQuoteResp sym with
    | .error e => ([req], .error e)
    | .ok j =>
      if j.rateLimited then
        ([req], .error "Alpha Vantage rate limit exceeded (25 calls/day)")
      else
        match j.globalQuote with
        | none => ([req], .error ("Symbol " ++ sym ++ " not found on Alpha Vantage"))
        | some q =>
          ([req], .ok ⟨q.price.coerced, q.previousClose.coerced,
            if q.changePercent.isFinite then some q.changePercent.toQ else none⟩)

/-- Insertion of a string into a `≤`-sorted list (helper for the JS
`Array#sort()` default string order). -/
def insertSorted (s : String) : List String → List String
  | [] => [s]
  | x :: xs => if s ≤ x then s :: x :: xs else x :: insertSorted s xs

/-- JS `Object.keys(o).sort()`: lexicographic string sort. -/
def sortStrings : List String → List String
  | [] => []
  | x :: xs => insertSorted x (sortStrings xs)

/-- The adapter `avFetchSeries(sym, output)`: Alpha Vantage daily series; throws on a
rate-limit note or an empty series object; sorts the date keys and keeps
the last `output`. -/
def avFetchSeries (cfg : Config) (sym : String) (output : ℕ) :
    List Req × Except String Series :=
  if cfg.keyAV = "" then ([], .error "Alpha Vantage key missing")
  else
    let req : Req := ⟨.av, .series, sym⟩
    match cfg.avSeriesResp sym with
    | .error e => ([req], .error e)
    | .ok j =>
      if j.rateLimited then
        ([req], .error "Alpha Vantage rate limit exceeded (25 calls/day)")
      else if j.series.isEmpty then
        ([req], .error ("No series data for " ++ sym))
      else
        let dates := sortStrings (j.series.map Prod.fst)
        let last := jsSliceLast dates output
        let values := last.map (fun d =>
          SeriesPoint.mk d (((j.series.find? (fun p => p.1 = d)).map Prod.snd).getD "undefined"))
        ([req], .ok ⟨values⟩)

/-- The function `mock.series(sym, output)`: the mock table row (or `[]`), sliced to the
last `output` points, with `datetime` kept (already a string) and `close`
rendered by `String(...)`. -/
def mockSeriesFn (cfg : Config) (sym : String) (output : ℕ) : Series :=
  let arr := jsSliceLast ((mockSeriesTable sym).getD []) output
  ⟨arr.map (fun v => SeriesPoint.mk v.1 (cfg.numToStr (.num v.2)))⟩

/-! ### Resolvers (`resolveQuote` / `resolveSeries`) -/

/-- Normalization `(sym || "").toUpperCase().trim()`; `none` models an absent/null
argument. -/
def normalize (sym : Option String) : String :=
  ⟨trimList ((sym.getD "").data.map Char.toUpper)⟩

/-- One guarded provider attempt as the resolver performs it: an exception
or a trivially-zero quote (`!data.price && !data.previous_close`) becomes
`data = null`. -/
def tryQuote (r : List Req × Except String Quote) : List Req × Option Quote :=
  match r with
  | (log, .ok d) => (log, if d.price ≠ 0 ∨ d.previous_close ≠ 0 then some d else none)
  | (log, .error _) => (log, none)

/-- The series counterpart: an exception or an empty `values` array becomes
`data = null`. -/
def trySeries (r : List Req × Except String Series) : List Req × Option Series :=
  match r with
  | (log, .ok d) => (log, if d.values.length > 0 then some d else none)
  | (log, .error _) => (log, none)

/-- The provider chain of `resolveQuote`: TSX symbols try Marketstack, all
others Finnhub; a provider without a key is skipped; on failure
(`!data && USE_AV`) Alpha Vantage is the common fallback. -/
def quoteChain (cfg : Config) (SYM : String) : List Req × Option Quote :=
  let first : List Req × Option Quote :=
    if strEndsWith SYM ".TO" then
      if cfg.keyMS ≠ "" then tryQuote (msFetchQuote cfg SYM) else ([], none)
    else
      if cfg.keyFH ≠ "" then tryQuote (fhFetchQuote cfg SYM) else ([], none)
  match first with
  | (log1, some d) => (log1, some d)
  | (log1, none) =>
    let second : List Req × Option Quote :=
      if cfg.keyAV ≠ "" then tryQuote (avFetchQuote cfg SYM) else ([], none)
    (log1 ++ second.1, second.2)

/-- The provider chain of `resolveSeries` (same routing as `quoteChain`). -/
def seriesChain (cfg : Config) (SYM : String) (output : ℕ) :
    List Req × Option Series :=
  let first : List Req × Option Series :=
    if strEndsWith SYM ".TO" then
      if cfg.keyMS ≠ "" then trySeries (msFetchSeries cfg SYM output) else ([], none)
    else
      if cfg.keyFH ≠ "" then trySeries (fhFetchSeries cfg SYM output) else ([], none)
  match first with
  | (log1, some d) => (log1, some d)
  | (log1, none) =>
    let second : List Req × Option Series :=
      if cfg.keyAV ≠ "" then trySeries (avFetchSeries cfg SYM output) else ([], none)
    (log1 ++ second.1, second.2)

/-- Result of one resolver (or `fetchQuote`/`fetchSeries`) call, with the
observables needed by the claims: the provider requests performed (`log`),
whether the request was answered from cache (`hit`), whether the success
path wrote the cache (`wrote`), whether the outer catch ran (`failed`),
and the messages passed to `setError` (`errMsgs`). -/
structure ResOut (α : Type) where
  result : α
  st : St
  log : List Req
  hit : Bool
  wrote : Bool
  failed : Bool
  errMsgs : List String
deriving DecidableEq

/-- The resolver `resolveQuote(sym)`: normalize, read cache (fingerprint
`"quote:" + SYM`), on a miss run the provider chain; on success
canonicalize (`Number(x) || 0`) and write both cache tiers with the quote
TTL; on total failure run the catch block (`setError`, the invalid-key
check — the `if (cached) return cached` guard is unreachable there since
`cached` is null on every path that reaches the catch — and mock
fallback). -/
def resolveQuote (cfg : Config) (st : St) (t : ℕ) (sym : Option String) :
    ResOut Quote :=
  let SYM := normalize sym
  let cacheKey := "quote:" ++ SYM
  let rc := readCache st.memQuotes st.lsQuotes t cacheKey
  match rc.1 with
  | some c => ⟨c, { st with memQuotes := rc.2 }, [], true, false, false, []⟩
  | none =>
    let st1 := { st with memQuotes := rc.2 }
    match quoteChain cfg SYM with
    | (log, none) =>
      let msg := "All providers failed for " ++ SYM
      ⟨mockQuoteFn SYM, { st1 with api := applyError st1.api t msg },
        log, false, false, true, [msg]⟩
    | (log, some d) =>
      let q : Quote := ⟨jsOr d.price 0, jsOr d.previous_close 0, d.change_percent⟩
      let wc := writeCache st1.memQuotes st1.lsQuotes t cacheKey q QUOTE_TTL_MS
      ⟨q, { st1 with memQuotes := wc.1, lsQuotes := wc.2 },
        log, false, true, false, []⟩

/-- The canonicalization of a successful series result
(`String(v.datetime || "")`, `String(Number(v.close) || 0)`, then dropping
points with an empty datetime). -/
def safeSeries (cfg : Config) (d : Series) : Series :=
  ⟨(d.values.map (fun v =>
      SeriesPoint.mk v.datetime (cfg.numToStr (jsNumOrZero (cfg.parseNum v.close))))).filter
    (fun v => v.datetime ≠ "")⟩

/-- The resolver `resolveSeries(sym, interval, output)`: like `resolveQuote` with
fingerprint `"series:" + SYM + "|" + interval + "|" + output` and the
series TTL. -/
def resolveSeries (cfg : Config) (st : St) (t : ℕ) (sym : Option String)
    (interval : String) (output : ℕ) : ResOut Series :=
  let SYM := normalize sym
  let cacheKey := "series:" ++ SYM ++ "|" ++ interval ++ "|" ++ toString output
  let rc := readCache st.memSeries st.lsSeries t cacheKey
  match rc.1 with
  | some c => ⟨c, { st with memSeries := rc.2 }, [], true, false, false, []⟩
  | none =>
    let st1 := { st with memSeries := rc.2 }
    match seriesChain cfg SYM output with
    | (log, none) =>
      let msg := "All providers failed for " ++ SYM
      ⟨mockSeriesFn cfg SYM output, { st1 with api := applyError st1.api t msg },
        log, false, false, true, [msg]⟩
    | (log, some d) =>
      let safe := safeSeries cfg d
      let wc := writeCache st1.memSeries st1.lsSeries t cacheKey safe SERIES_TTL_MS
      ⟨safe, { st1 with memSeries := wc.1, lsSeries := wc.2 },
        log, false, true, false, []⟩

/-- Result of `validateKeyOnce`. -/
structure VOut where
  st : St
  log : List Req
  errMsgs : List String

/-- The function `validateKeyOnce()`: on the first call only, sets `validated` and
issues one probe quote for `"AAPL"` via Finnhub if its key is configured,
else Alpha Vantage, else nothing; a probe failure runs `setError` and the
invalid-key check. -/
def validateKeyOnce (cfg : Config) (st : St) (t : ℕ) : VOut :=
  if st.validated then ⟨st, [], []⟩
  else
    let st1 := { st with validated := true }
    let probe : Option (List Req × Except String Quote) :=
      if cfg.keyFH ≠ "" then some (fhFetchQuote cfg "AAPL")
      else if cfg.keyAV ≠ "" then some (avFetchQuote cfg "AAPL")
      else none
    match probe with
    | none => ⟨st1, [], []⟩
    | some (log, .ok _) => ⟨st1, log, []⟩
    | some (log, .error e) =>
      ⟨{ st1 with api := applyError st1.api t e }, log, [e]⟩

/-- Exported `fetchQuote(symbol)`: `await validateKeyOnce()` then
`resolveQuote(symbol)`. -/
def fetchQuote (cfg : Config) (st : St) (t : ℕ) (sym : Option String) :
    ResOut Quote :=
  let v := validateKeyOnce cfg st t
  let r := resolveQuote cfg v.st t sym
  { r with log := v.log ++ r.log, errMsgs := v.errMsgs ++ r.errMsgs }

/-- Exported `fetchSeries(symbol, interval, output)`. -/
def fetchSeries (cfg : Config) (st : St) (t : ℕ) (sym : Option String)
    (interval : String) (output : ℕ) : ResOut Series :=
  let v := validateKeyOnce cfg st t
  let r := resolveSeries cfg v.st t sym interval output
  { r with log := v.log ++ r.log, errMsgs := v.errMsgs ++ r.errMsgs }

/-! ### Specification-side definition (claim C10) -/

/-- Modelled from the claim's words, for comparison with the code: the
credential-validation request sequence — one probe quote for `"AAPL"` via
Finnhub if its key is configured, else Alpha Vantage, else no request. -/
def specValidationRequest (cfg : Config) : List Req :=
  if cfg.keyFH ≠ "" then [⟨.fh, .quote, "AAPL"⟩]
  else if cfg.keyAV ≠ "" then [⟨.av, .quote, "AAPL"⟩]
  else []

/-! ### Non-negativity predicates on oracle responses (claim C9) -/

/-- The field is non-negative after the adapter's finite-or-zero coercion. -/
def jsNonneg (n : JsNum) : Bool :=
  decide (0 ≤ n.coerced)

/-- Every numeric field of a Marketstack quote body is non-negative. -/
def msRespNonneg : Except String MsResp → Bool
  | .ok j => (j.data.getD []).all (fun b => jsNonneg b.close && jsNonneg b.openPrice)
  | .error _ => true

/-- Every numeric field of a Finnhub quote body is non-negative. -/
def fhRespNonneg : Except String FhQuoteResp → Bool
  | .ok j => jsNonneg j.c && jsNonneg j.pc
  | .error _ => true

/-- Every numeric field of an Alpha Vantage quote body is non-negative. -/
def avRespNonneg : Except String AvQuoteResp → Bool
  | .ok j =>
    match j.globalQuote with
    | some g => jsNonneg g.price && jsNonneg g.previousClose
    | none => true
  | .error _ => true

/-! ### Concrete fixtures for witnesses and counterexamples -/

/-- Oracle on which every request raises; no key configured; trivial
coercion parameters. -/
def cfgNone : Config where
  keyMS := ""
  keyFH := ""
  keyAV := ""
  msQuoteResp := fun _ => .error "network down"
  fhQuoteResp := fun _ => .error "network down"
  avQuoteResp := fun _ => .error "network down"
  msSeriesResp := fun _ _ => .error "network down"
  fhSeriesResp := fun _ => .error "network down"
  avSeriesResp := fun _ => .error "network down"
  numToStr := fun _ => "0"
  parseNum := fun _ => .num 0
  tsToDateStr := fun _ => "2025-01-01"

/-- Finnhub-only configuration answering every quote with price 5,
previous close 4, and every candle request with one bar. -/
def cfgFhGood : Config :=
  { cfgNone with
    keyFH := "k"
    fhQuoteResp := fun _ => .ok ⟨.num 5, .num 4, .nan⟩
    fhSeriesResp := fun _ => .ok ⟨"ok", some [1], some [.num 10]⟩
    numToStr := fun _ => "10"
    parseNum := fun _ => .num 10 }

/-- Finnhub-only configuration reporting a negative price. -/
def cfgFhNeg : Config :=
  { cfgNone with
    keyFH := "k"
    fhQuoteResp := fun _ => .ok ⟨.num (-5), .num 4, .nan⟩ }

/-- Marketstack-only configuration whose every quote body is malformed
(missing `data` array). -/
def cfgMsMalformed : Config :=
  { cfgNone with
    keyMS := "m"
    msQuoteResp := fun _ => .ok ⟨none, none⟩ }

/-- Marketstack and Alpha Vantage configured, every request failing. -/
def cfgMsAv : Config :=
  { cfgNone with keyMS := "m", keyAV := "a" }

/-- The initial module state. -/
def stEmpty : St :=
  ⟨[], [], [], [], ⟨none, 0, false⟩, false⟩

/-- A state in which `validateKeyOnce` has already run. -/
def stValidated : St :=
  { stEmpty with validated := true }

/-- A validated state holding only an entry for `quote:AC.TO` that expired
at time 50. -/
def stStale : St :=
  { stValidated with
    memQuotes := [("quote:AC.TO", ⟨⟨99, 98, none⟩, 50⟩)]
    lsQuotes := [("quote:AC.TO", ⟨⟨99, 98, none⟩, 50⟩)] }

/-! ### Helper lemmas -/

theorem SMap.get?_set_self (m : SMap α) (k : String) (v : α) :
    SMap.get? (SMap.set m k v) k = some v := by
  simp [SMap.get?, SMap.set]

theorem readCache_none_snd {map store : SMap (Entry α)} {t : ℕ} {k : String}
    (h : (readCache map store t k).1 = none) :
    (readCache map store t k).2 = map := by
  unfold readCache at h ⊢
  rcases hm : SMap.get? map k with _ | e
  · simp only [hm] at h ⊢
    rcases hl : readLS store t k with _ | v
    · simp [hl]
    · simp [hl] at h
  · simp only [hm] at h ⊢
    by_cases ht : t < e.exp
    · simp [ht]
    · simp only [if_neg ht] at h ⊢
      rcases hl : readLS store t k with _ | v
      · simp [hl]
      · simp [hl] at h

theorem readCache_not_found {map store : SMap (Entry α)} (t : ℕ) {k : String}
    (h1 : SMap.get? map k = none) (h2 : SMap.get? store k = none) :
    readCache map store t k = (none, map) := by
  simp [readCache, readLS, h1, h2]

theorem readCache_fresh (map store : SMap (Entry α)) {t : ℕ} (k : String) (v : α)
    {e : ℕ} (h : t < e) :
    readCache (SMap.set map k ⟨v, e⟩) store t k = (some v, SMap.set map k ⟨v, e⟩) := by
  simp [readCache, SMap.get?_set_self, h]

theorem tryQuote_fst (r : List Req × Except String Quote) :
    (tryQuote r).1 = r.1 := by
  rcases r with ⟨l, d⟩
  cases d <;> simp [tryQuote]

theorem trySeries_fst (r : List Req × Except String Series) :
    (trySeries r).1 = r.1 := by
  rcases r with ⟨l, d⟩
  cases d <;> simp [trySeries]

theorem tryQuote_some {r : List Req × Except String Quote} {d : Quote}
    (h : (tryQuote r).2 = some d) : r.2 = .ok d := by
  rcases r with ⟨l, e⟩
  cases e with
  | ok q =>
    simp only [tryQuote] at h
    split at h <;> simp_all
  | error e => simp [tryQuote] at h

theorem validateKeyOnce_of_validated {cfg : Config} {st : St} {t : ℕ}
    (h : st.validated = true) :
    validateKeyOnce cfg st t = ⟨st, [], []⟩ := by
  simp [validateKeyOnce, h]

theorem validateKeyOnce_validated (cfg : Config) (st : St) (t : ℕ) :
    (validateKeyOnce cfg st t).st.validated = true := by
  unfold validateKeyOnce
  by_cases h : st.validated
  · simp [h]
  · simp only [h, if_false, Bool.false_eq_true]
    split <;> simp

theorem validateKeyOnce_caches (cfg : Config) (st : St) (t : ℕ) :
    (validateKeyOnce cfg st t).st.memQuotes = st.memQuotes ∧
    (validateKeyOnce cfg st t).st.lsQuotes = st.lsQuotes ∧
    (validateKeyOnce cfg st t).st.memSeries = st.memSeries ∧
    (validateKeyOnce cfg st t).st.lsSeries = st.lsSeries := by
  unfold validateKeyOnce
  by_cases h : st.validated
  · simp [h]
  · simp only [h, if_false, Bool.false_eq_true]
    split <;> simp

theorem validateKeyOnce_api_no_keys {cfg : Config} (st : St) (t : ℕ)
    (hfh : cfg.keyFH = "") (hav : cfg.keyAV = "") :
    (validateKeyOnce cfg st t).st.api = st.api ∧
    (validateKeyOnce cfg st t).log = [] ∧
    (validateKeyOnce cfg st t).errMsgs = [] := by
  unfold validateKeyOnce
  by_cases h : st.validated <;> simp [h, hfh, hav]

theorem validateKeyOnce_log_first (cfg : Config) {st : St} (t : ℕ)
    (h : st.validated = false) :
    (validateKeyOnce cfg st t).log = specValidationRequest cfg := by
  unfold validateKeyOnce specValidationRequest
  simp only [h, Bool.false_eq_true, if_false]
  by_cases hfh : cfg.keyFH = ""
  · by_cases hav : cfg.keyAV = ""
    · simp [hfh, hav]
    · simp only [hfh, hav, ne_eq, not_true_eq_false, if_false, not_false_eq_true, if_true]
      unfold avFetchQuote
      rcases hr : cfg.avQuoteResp "AAPL" with e | j <;> simp [hav, hr]
      · by_cases hrl : j.rateLimited
        · simp [hrl]
        · rcases hg : j.globalQuote with _ | g <;> simp [hrl, hg]
  · simp only [hfh, ne_eq, not_false_eq_true, if_true]
    unfold fhFetchQuote
    rcases hr : cfg.fhQuoteResp "AAPL" with e | j <;> simp [hfh, hr]

theorem resolveQuote_hit {cfg : Config} {st : St} {t : ℕ} {sym : Option String}
    {c : Quote}
    (h : (readCache st.memQuotes st.lsQuotes t ("quote:" ++ normalize sym)).1 = some c) :
    resolveQuote cfg st t sym =
      ⟨c, { st with memQuotes :=
              (readCache st.memQuotes st.lsQuotes t ("quote:" ++ normalize sym)).2 },
        [], true, false, false, []⟩ := by
  unfold resolveQuote
  simp [h]

theorem resolveQuote_success {cfg : Config} {st : St} {t : ℕ} {sym : Option String}
    {log : List Req} {d : Quote}
    (hrc : (readCache st.memQuotes st.lsQuotes t ("quote:" ++ normalize sym)).1 = none)
    (hch : quoteChain cfg (normalize sym) = (log, some d)) :
    resolveQuote cfg st t sym =
      ⟨⟨jsOr d.price 0, jsOr d.previous_close 0, d.change_percent⟩,
       { st with
          memQuotes := SMap.set st.memQuotes ("quote:" ++ normalize sym)
            ⟨⟨jsOr d.price 0, jsOr d.previous_close 0, d.change_percent⟩, t + QUOTE_TTL_MS⟩
          lsQuotes := SMap.set st.lsQuotes ("quote:" ++ normalize sym)
            ⟨⟨jsOr d.price 0, jsOr d.previous_close 0, d.change_percent⟩, t + QUOTE_TTL_MS⟩ },
       log, false, true, false, []⟩ := by
  have h2 := readCache_none_snd hrc
  unfold resolveQuote
  simp [hrc, h2, hch, writeCache, writeLS]

theorem resolveQuote_total_failure {cfg : Config} {st : St} {t : ℕ}
    {sym : Option String} {log : List Req}
    (hrc : (readCache st.memQuotes st.lsQuotes t ("quote:" ++ normalize sym)).1 = none)
    (hch : quoteChain cfg (normalize sym) = (log, none)) :
    resolveQuote cfg st t sym =
      ⟨mockQuoteFn (normalize sym),
       { st with api := applyError st.api t ("All providers failed for " ++ normalize sym) },
       log, false, false, true, ["All providers failed for " ++ normalize sym]⟩ := by
  have h2 := readCache_none_snd hrc
  unfold resolveQuote
  simp [hrc, h2, hch]

theorem resolveSeries_hit {cfg : Config} {st : St} {t : ℕ} {sym : Option String}
    {interval : String} {output : ℕ} {c : Series}
    (h : (readCache st.memSeries st.lsSeries t
            ("series:" ++ normalize sym ++ "|" ++ interval ++ "|" ++ toString output)).1
          = some c) :
    resolveSeries cfg st t sym interval output =
      ⟨c, { st with memSeries :=
              (readCache st.memSeries st.lsSeries t
                ("series:" ++ normalize sym ++ "|" ++ interval ++ "|" ++ toString output)).2 },
        [], true, false, false, []⟩ := by
  unfold resolveSeries
  simp [h]

theorem resolveSeries_success {cfg : Config} {st : St} {t : ℕ} {sym : Option String}
    {interval : String} {output : ℕ} {log : List Req} {d : Series}
    (hrc : (readCache st.memSeries st.lsSeries t
              ("series:" ++ normalize sym ++ "|" ++ interval ++ "|" ++ toString output)).1
            = none)
    (hch : seriesChain cfg (normalize sym) output = (log, some d)) :
    resolveSeries cfg st t sym interval output =
      ⟨safeSeries cfg d,
       { st with
          memSeries := SMap.set st.memSeries
            ("series:" ++ normalize sym ++ "|" ++ interval ++ "|" ++ toString output)
            ⟨safeSeries cfg d, t + SERIES_TTL_MS⟩
          lsSeries := SMap.set st.lsSeries
            ("series:" ++ normalize sym ++ "|" ++ interval ++ "|" ++ toString output)
            ⟨safeSeries cfg d, t + SERIES_TTL_MS⟩ },
       log, false, true, false, []⟩ := by
  have h2 := readCache_none_snd hrc
  unfold resolveSeries
  simp [hrc, h2, hch, writeCache, writeLS]

theorem resolveSeries_total_failure {cfg : Config} {st : St} {t : ℕ}
    {sym : Option String} {interval : String} {output : ℕ} {log : List Req}
    (hrc : (readCache st.memSeries st.lsSeries t
              ("series:" ++ normalize sym ++ "|" ++ interval ++ "|" ++ toString output)).1
            = none)
    (hch : seriesChain cfg (normalize sym) output = (log, none)) :
    resolveSeries cfg st t sym interval output =
      ⟨mockSeriesFn cfg (normalize sym) output,
       { st with api := applyError st.api t ("All providers failed for " ++ normalize sym) },
       log, false, false, true, ["All providers failed for " ++ normalize sym]⟩ := by
  have h2 := readCache_none_snd hrc
  unfold resolveSeries
  simp [hrc, h2, hch]

theorem quoteChain_no_keys {cfg : Config} (S : String)
    (h1 : cfg.keyMS = "") (h2 : cfg.keyFH = "") (h3 : cfg.keyAV = "") :
    quoteChain cfg S = ([], none) := by
  unfold quoteChain
  by_cases hts : strEndsWith S ".TO" = true <;> simp [hts, h1, h2, h3]

theorem seriesChain_no_keys {cfg : Config} (S : String) (output : ℕ)
    (h1 : cfg.keyMS = "") (h2 : cfg.keyFH = "") (h3 : cfg.keyAV = "") :
    seriesChain cfg S output = ([], none) := by
  unfold seriesChain
  by_cases hts : strEndsWith S ".TO" = true <;> simp [hts, h1, h2, h3]

theorem msFetchQuote_fst {cfg : Config} (s : String) (h : cfg.keyMS ≠ "") :
    (msFetchQuote cfg s).1 = [⟨.ms, .quote, replaceFirst s ".TO" ".XTSE"⟩] := by
  unfold msFetchQuote
  simp only [h, if_false]
  rcases hr : cfg.msQuoteResp (replaceFirst s ".TO" ".XTSE") with e | j
  · simp
  · rcases j with ⟨err, dat⟩
    rcases err with _ | e
    · rcases dat with _ | l
      · simp
      · rcases l with _ | ⟨today, rest⟩ <;> simp
    · simp

theorem fhFetchQuote_fst {cfg : Config} (s : String) (h : cfg.keyFH ≠ "") :
    (fhFetchQuote cfg s).1 = [⟨.fh, .quote, s⟩] := by
  unfold fhFetchQuote
  simp only [h, if_false]
  rcases hr : cfg.fhQuoteResp s with e | j <;> simp

theorem avFetchQuote_fst {cfg : Config} (s : String) (h : cfg.keyAV ≠ "") :
    (avFetchQuote cfg s).1 = [⟨.av, .quote, s⟩] := by
  unfold avFetchQuote
  simp only [h, if_false]
  rcases hr : cfg.avQuoteResp s with e | j
  · simp
  · by_cases hrl : j.rateLimited
    · simp [hrl]
    · rcases hg : j.globalQuote with _ | g <;> simp [hrl, hg]

/-- Complete characterization of the request sequence `quoteChain` issues
for a TSX-suffixed symbol. -/
theorem quoteChain_tsx (cfg : Config) {S : String} (h : strEndsWith S ".TO" = true) :
    ((quoteChain cfg S).1.map Req.provider ∈
      ([[], [Provider.ms], [Provider.av], [Provider.ms, Provider.av]] :
        List (List Provider))) ∧
    (cfg.keyMS = "" → Provider.ms ∉ (quoteChain cfg S).1.map Req.provider) ∧
    (cfg.keyAV = "" → Provider.av ∉ (quoteChain cfg S).1.map Req.provider) ∧
    (Provider.fh ∉ (quoteChain cfg S).1.map Req.provider) ∧
    (cfg.keyMS ≠ "" → ((quoteChain cfg S).1.map Req.provider).head? = some Provider.ms) := by
  unfold quoteChain
  simp only [h, if_true]
  by_cases hms : cfg.keyMS = ""
  · simp only [hms, ne_eq, not_true_eq_false, if_false]
    by_cases hav : cfg.keyAV = ""
    · simp [hav]
    · have hfst := tryQuote_fst (avFetchQuote cfg S)
      rcases htq : tryQuote (avFetchQuote cfg S) with ⟨l, d⟩
      rw [htq] at hfst
      rw [avFetchQuote_fst S hav] at hfst
      have hl : l = [⟨.av, .quote, S⟩] := hfst
      subst hl
      simp [hav, htq]
  · have hfst := tryQuote_fst (msFetchQuote cfg S)
    rcases htq : tryQuote (msFetchQuote cfg S) with ⟨l, d⟩
    rw [htq] at hfst
    rw [msFetchQuote_fst S hms] at hfst
    have hl : l = [⟨.ms, .quote, replaceFirst S ".TO" ".XTSE"⟩] := hfst
    subst hl
    simp only [hms, ne_eq, not_false_eq_true, if_true, htq]
    rcases d with _ | d
    · by_cases hav : cfg.keyAV = ""
      · simp [hav, hms]
      · have hfst2 := tryQuote_fst (avFetchQuote cfg S)
        rcases htq2 : tryQuote (avFetchQuote cfg S) with ⟨l2, d2⟩
        rw [htq2] at hfst2
        rw [avFetchQuote_fst S hav] at hfst2
        have hl2 : l2 = [⟨.av, .quote, S⟩] := hfst2
        subst hl2
        simp [hav, htq2, hms]
    · simp [hms]

theorem jsSliceLast_nil (n : ℕ) : jsSliceLast ([] : List α) n = [] := by
  unfold jsSliceLast
  split <;> simp

theorem mockSeriesFn_unknown (cfg : Config) (output : ℕ)
    (h : mockSeriesTable s = none) : mockSeriesFn cfg s output = ⟨[]⟩ := by
  simp [mockSeriesFn, h, jsSliceLast_nil]

theorem allFailedMsg_ne_empty (s : String) :
    ("All providers failed for " ++ s) ≠ "" := by
  intro h
  rcases s with ⟨l⟩
  have : ("All providers failed for ".data ++ l) = [] := congrArg String.data h
  simp at this

theorem applyError_lastError (a : ApiState) (t : ℕ) {msg : String} (h : msg ≠ "") :
    (applyError a t msg).lastError = some msg := by
  simp only [applyError, setError, if_neg h]
  split <;> simp

theorem applyError_lastErrorAt (a : ApiState) (t : ℕ) (msg : String) :
    (applyError a t msg).lastErrorAt = t := by
  simp only [applyError]
  split <;> simp [setError]

theorem applyError_invalidKey (a : ApiState) (t : ℕ) {msg : String} (h : msg ≠ "")
    (hm : mentionsInvalidKey msg = false) :
    (applyError a t msg).invalidKey = a.invalidKey := by
  unfold applyError setError lastErrStr
  simp [h, hm]

theorem applyError_invalidKey_or (a : ApiState) (t : ℕ) {msg : String} (h : msg ≠ "") :
    (applyError a t msg).invalidKey = (a.invalidKey || mentionsInvalidKey msg) := by
  unfold applyError setError lastErrStr
  simp only [if_neg h]
  split <;> simp_all

theorem fetchQuote_of_validated {cfg : Config} {st : St} (t : ℕ) (sym : Option String)
    (h : st.validated = true) :
    fetchQuote cfg st t sym = resolveQuote cfg st t sym := by
  simp only [fetchQuote, validateKeyOnce_of_validated h]
  simp

theorem fetchSeries_of_validated {cfg : Config} {st : St} (t : ℕ) (sym : Option String)
    (interval : String) (output : ℕ) (h : st.validated = true) :
    fetchSeries cfg st t sym interval output
      = resolveSeries cfg st t sym interval output := by
  simp only [fetchSeries, validateKeyOnce_of_validated h]
  simp

theorem fetchQuote_mem_fresh {cfg : Config} {st : St} {t : ℕ} {sym : Option String}
    {q : Quote} {e : ℕ}
    (hval : st.validated = true)
    (hmem : SMap.get? st.memQuotes ("quote:" ++ normalize sym) = some ⟨q, e⟩)
    (hte : t < e) :
    fetchQuote cfg st t sym = ⟨q, st, [], true, false, false, []⟩ := by
  rw [fetchQuote_of_validated t sym hval]
  have hrc : (readCache st.memQuotes st.lsQuotes t ("quote:" ++ normalize sym)).1
      = some q := by
    unfold readCache
    rw [hmem]
    simp [hte]
  have h2 : (readCache st.memQuotes st.lsQuotes t ("quote:" ++ normalize sym)).2
      = st.memQuotes := by
    unfold readCache
    rw [hmem]
    simp [hte]
  rw [resolveQuote_hit hrc, h2]

theorem fetchSeries_mem_fresh {cfg : Config} {st : St} {t : ℕ} {sym : Option String}
    {interval : String} {output : ℕ} {c : Series} {e : ℕ}
    (hval : st.validated = true)
    (hmem : SMap.get? st.memSeries
      ("series:" ++ normalize sym ++ "|" ++ interval ++ "|" ++ toString output)
      = some ⟨c, e⟩)
    (hte : t < e) :
    fetchSeries cfg st t sym interval output = ⟨c, st, [], true, false, false, []⟩ := by
  rw [fetchSeries_of_validated t sym interval output hval]
  have hrc : (readCache st.memSeries st.lsSeries t
      ("series:" ++ normalize sym ++ "|" ++ interval ++ "|" ++ toString output)).1
      = some c := by
    unfold readCache
    rw [hmem]
    simp [hte]
  have h2 : (readCache st.memSeries st.lsSeries t
      ("series:" ++ normalize sym ++ "|" ++ interval ++ "|" ++ toString output)).2
      = st.memSeries := by
    unfold readCache
    rw [hmem]
    simp [hte]
  rw [resolveSeries_hit hrc, h2]

theorem fetchQuote_cached_window (cfg : Config) (st0 : St) (T t : ℕ)
    (sym sym2 : Option String)
    (hw : (fetchQuote cfg st0 T sym).wrote = true)
    (ht : t < T + QUOTE_TTL_MS)
    (hsym : normalize sym2 = normalize sym) :
    fetchQuote cfg (fetchQuote cfg st0 T sym).st t sym2 =
      ⟨(fetchQuote cfg st0 T sym).result, (fetchQuote cfg st0 T sym).st,
        [], true, false, false, []⟩ := by
  have hw' : (resolveQuote cfg (validateKeyOnce cfg st0 T).st T sym).wrote = true := hw
  rcases hrc : (readCache (validateKeyOnce cfg st0 T).st.memQuotes
      (validateKeyOnce cfg st0 T).st.lsQuotes T ("quote:" ++ normalize sym)).1 with _ | c
  · rcases hch : quoteChain cfg (normalize sym) with ⟨log, d⟩
    rcases d with _ | d
    · rw [resolveQuote_total_failure hrc hch] at hw'
      simp at hw'
    · have hres := resolveQuote_success hrc hch
      have hfq : fetchQuote cfg st0 T sym =
          { resolveQuote cfg (validateKeyOnce cfg st0 T).st T sym with
            log := (validateKeyOnce cfg st0 T).log ++
              (resolveQuote cfg (validateKeyOnce cfg st0 T).st T sym).log
            errMsgs := (validateKeyOnce cfg st0 T).errMsgs ++
              (resolveQuote cfg (validateKeyOnce cfg st0 T).st T sym).errMsgs } := rfl
      rw [hfq, hres]
      dsimp only
      exact fetchQuote_mem_fresh (validateKeyOnce_validated cfg st0 T)
        (by rw [hsym]; exact SMap.get?_set_self _ _ _) ht
  · rw [resolveQuote_hit hrc] at hw'
    simp at hw'

theorem fetchSeries_cached_window (cfg : Config) (st0 : St) (T t : ℕ)
    (sym sym2 : Option String) (interval : String) (output : ℕ)
    (hw : (fetchSeries cfg st0 T sym interval output).wrote = true)
    (ht : t < T + SERIES_TTL_MS)
    (hsym : normalize sym2 = normalize sym) :
    fetchSeries cfg (fetchSeries cfg st0 T sym interval output).st t sym2 interval output =
      ⟨(fetchSeries cfg st0 T sym interval output).result,
        (fetchSeries cfg st0 T sym interval output).st, [], true, false, false, []⟩ := by
  have hw' : (resolveSeries cfg (validateKeyOnce cfg st0 T).st T sym interval output).wrote
      = true := hw
  rcases hrc : (readCache (validateKeyOnce cfg st0 T).st.memSeries
      (validateKeyOnce cfg st0 T).st.lsSeries T
      ("series:" ++ normalize sym ++ "|" ++ interval ++ "|" ++ toString output)).1 with _ | c
  · rcases hch : seriesChain cfg (normalize sym) output with ⟨log, d⟩
    rcases d with _ | d
    · rw [resolveSeries_total_failure hrc hch] at hw'
      simp at hw'
    · have hres := resolveSeries_success hrc hch
      have hfq : fetchSeries cfg st0 T sym interval output =
          { resolveSeries cfg (validateKeyOnce cfg st0 T).st T sym interval output with
            log := (validateKeyOnce cfg st0 T).log ++
              (resolveSeries cfg (validateKeyOnce cfg st0 T).st T sym interval output).log
            errMsgs := (validateKeyOnce cfg st0 T).errMsgs ++
              (resolveSeries cfg (validateKeyOnce cfg st0 T).st T sym interval output).errMsgs } :=
        rfl
      rw [hfq, hres]
      dsimp only
      exact fetchSeries_mem_fresh (validateKeyOnce_validated cfg st0 T)
        (by rw [hsym]; exact SMap.get?_set_self _ _ _) ht
  · rw [resolveSeries_hit hrc] at hw'
    simp at hw'

theorem jsOr_nonneg {q : ℚ} (h : 0 ≤ q) : 0 ≤ jsOr q 0 := by
  unfold jsOr
  split <;> simp [h]

theorem mockQuoteTable_nonneg {s : String} {q : MockQ}
    (h : mockQuoteTable s = some q) : 0 ≤ q.price ∧ 0 ≤ q.prevClose := by
  unfold mockQuoteTable at h
  split at h <;> simp_all <;> subst h <;> constructor <;> decide

theorem mockQuoteFn_nonneg (s : String) :
    0 ≤ (mockQuoteFn s).price ∧ 0 ≤ (mockQuoteFn s).previous_close := by
  unfold mockQuoteFn
  rcases hm : mockQuoteTable s with _ | q
  · simp
  · obtain ⟨h1, h2⟩ := mockQuoteTable_nonneg hm
    exact ⟨jsOr_nonneg h1, jsOr_nonneg h2⟩

theorem msFetchQuote_nonneg {cfg : Config} {s : String} {d : Quote}
    (hnn : msRespNonneg (cfg.msQuoteResp (replaceFirst s ".TO" ".XTSE")) = true)
    (h : (msFetchQuote cfg s).2 = .ok d) :
    0 ≤ d.price ∧ 0 ≤ d.previous_close := by
  unfold msFetchQuote at h
  by_cases hk : cfg.keyMS = ""
  · simp [hk] at h
  · simp only [hk, if_false] at h
    rcases hr : cfg.msQuoteResp (replaceFirst s ".TO" ".XTSE") with e | j
    · rw [hr] at h
      simp at h
    · rw [hr] at h
      rw [hr] at hnn
      rcases j with ⟨err, dat⟩
      rcases err with _ | e
      · rcases dat with _ | l
        · simp at h
        · rcases l with _ | ⟨today, rest⟩
          · simp at h
          · simp only [msRespNonneg, Option.getD_some] at hnn
            rw [List.all_eq_true] at hnn
            have htoday := hnn today (List.mem_cons_self _ _)
            simp only [Bool.and_eq_true, jsNonneg, decide_eq_true_eq] at htoday
            rcases rest with _ | ⟨yesterday, rest2⟩
            · injection h with h
              subst h
              exact ⟨htoday.1, htoday.2⟩
            · have hyest := hnn yesterday (List.mem_cons_of_mem _ (List.mem_cons_self _ _))
              simp only [Bool.and_eq_true, jsNonneg, decide_eq_true_eq] at hyest
              injection h with h
              subst h
              exact ⟨htoday.1, hyest.1⟩
      · simp at h

theorem fhFetchQuote_nonneg {cfg : Config} {s : String} {d : Quote}
    (hnn : fhRespNonneg (cfg.fhQuoteResp s) = true)
    (h : (fhFetchQuote cfg s).2 = .ok d) :
    0 ≤ d.price ∧ 0 ≤ d.previous_close := by
  unfold fhFetchQuote at h
  by_cases hk : cfg.keyFH = ""
  · simp [hk] at h
  · simp only [hk, if_false] at h
    rcases hr : cfg.fhQuoteResp s with e | j
    · rw [hr] at h
      simp at h
    · rw [hr] at h
      rw [hr] at hnn
      simp only [fhRespNonneg, Bool.and_eq_true, jsNonneg, decide_eq_true_eq] at hnn
      injection h with h
      subst h
      exact hnn

theorem avFetchQuote_nonneg {cfg : Config} {s : String} {d : Quote}
    (hnn : avRespNonneg (cfg.avQuoteResp s) = true)
    (h : (avFetchQuote cfg s).2 = .ok d) :
    0 ≤ d.price ∧ 0 ≤ d.previous_close := by
  unfold avFetchQuote at h
  by_cases hk : cfg.keyAV = ""
  · simp [hk] at h
  · simp only [hk, if_false] at h
    rcases hr : cfg.avQuoteResp s with e | j
    · rw [hr] at h
      simp at h
    · rw [hr] at h
      rw [hr] at hnn
      by_cases hrl : j.rateLimited
      · simp [hrl] at h
      · simp only [hrl, if_false, Bool.false_eq_true] at h
        rcases hg : j.globalQuote with _ | g
        · rw [hg] at h
          simp at h
        · rw [hg] at h
          simp only [avRespNonneg, hg, Bool.and_eq_true, jsNonneg,
            decide_eq_true_eq] at hnn
          injection h with h
          subst h
          exact hnn

theorem quoteChain_some {cfg : Config} {S : String} {d : Quote}
    (h : (quoteChain cfg S).2 = some d) :
    (msFetchQuote cfg S).2 = .ok d ∨ (fhFetchQuote cfg S).2 = .ok d ∨
    (avFetchQuote cfg S).2 = .ok d := by
  have hav2 : ∀ (l1 : List Req),
      ((l1 ++ (if cfg.keyAV ≠ "" then tryQuote (avFetchQuote cfg S) else ([], none)).1,
        (if cfg.keyAV ≠ "" then tryQuote (avFetchQuote cfg S) else ([], none)).2) :
        List Req × Option Quote).2 = some d →
      (avFetchQuote cfg S).2 = .ok d := by
    intro l1 hh
    replace hh : (if cfg.keyAV ≠ "" then tryQuote (avFetchQuote cfg S) else ([], none)).2
        = some d := hh
    by_cases hka : cfg.keyAV ≠ ""
    · rw [if_pos hka] at hh
      exact tryQuote_some hh
    · rw [if_neg hka] at hh
      simp at hh
  unfold quoteChain at h
  split at h
  · by_cases hk : cfg.keyMS ≠ ""
    · rw [if_pos hk] at h
      rcases htq : tryQuote (msFetchQuote cfg S) with ⟨l1, d1⟩
      rw [htq] at h
      rcases d1 with _ | d1
      · exact Or.inr (Or.inr (hav2 l1 h))
      · replace h : some d1 = some d := h
        injection h with h
        subst h
        exact Or.inl (tryQuote_some (by rw [htq]))
    · rw [if_neg hk] at h
      exact Or.inr (Or.inr (hav2 [] h))
  · by_cases hk : cfg.keyFH ≠ ""
    · rw [if_pos hk] at h
      rcases htq : tryQuote (fhFetchQuote cfg S) with ⟨l1, d1⟩
      rw [htq] at h
      rcases d1 with _ | d1
      · exact Or.inr (Or.inr (hav2 l1 h))
      · replace h : some d1 = some d := h
        injection h with h
        subst h
        exact Or.inr (Or.inl (tryQuote_some (by rw [htq])))
    · rw [if_neg hk] at h
      exact Or.inr (Or.inr (hav2 [] h))

theorem quoteChain_nonneg {cfg : Config} {S : String} {log : List Req} {d : Quote}
    (hch : quoteChain cfg S = (log, some d))
    (hms : msRespNonneg (cfg.msQuoteResp (replaceFirst S ".TO" ".XTSE")) = true)
    (hfh : fhRespNonneg (cfg.fhQuoteResp S) = true)
    (hav : avRespNonneg (cfg.avQuoteResp S) = true) :
    0 ≤ d.price ∧ 0 ≤ d.previous_close := by
  have h2 : (quoteChain cfg S).2 = some d := by rw [hch]
  rcases quoteChain_some h2 with h | h | h
  · exact msFetchQuote_nonneg hms h
  · exact fhFetchQuote_nonneg hfh h
  · exact avFetchQuote_nonneg hav h

theorem resolveQuote_validated (cfg : Config) (st : St) (t : ℕ) (sym : Option String) :
    (resolveQuote cfg st t sym).st.validated = st.validated := by
  rcases hrc : (readCache st.memQuotes st.lsQuotes t ("quote:" ++ normalize sym)).1
    with _ | c
  · rcases hch : quoteChain cfg (normalize sym) with ⟨log, d⟩
    rcases d with _ | d
    · rw [resolveQuote_total_failure hrc hch]
    · rw [resolveQuote_success hrc hch]
  · rw [resolveQuote_hit hrc]

theorem resolveSeries_validated (cfg : Config) (st : St) (t : ℕ) (sym : Option String)
    (interval : String) (output : ℕ) :
    (resolveSeries cfg st t sym interval output).st.validated = st.validated := by
  rcases hrc : (readCache st.memSeries st.lsSeries t
      ("series:" ++ normalize sym ++ "|" ++ interval ++ "|" ++ toString output)).1
    with _ | c
  · rcases hch : seriesChain cfg (normalize sym) output with ⟨log, d⟩
    rcases d with _ | d
    · rw [resolveSeries_total_failure hrc hch]
    · rw [resolveSeries_success hrc hch]
  · rw [resolveSeries_hit hrc]

/-! ### Claim theorems -/

/-- C1: once a resolution succeeds and writes the cache at time `T` (TTL
`QUOTE_TTL_MS` / `SERIES_TTL_MS`), any subsequent `fetchQuote` /
`fetchSeries` call for the same fingerprint at any time `t < T + TTL`
returns the cached value immediately, performs no provider request
(`log = []`), and leaves the state unchanged — hence at most one upstream
attempt sequence per unexpired cache window. -/
theorem C1_cached_window :
    (∀ (cfg : Config) (st0 : St) (T t : ℕ) (sym sym2 : Option String),
      (fetchQuote cfg st0 T sym).wrote = true →
      t < T + QUOTE_TTL_MS →
      normalize sym2 = normalize sym →
      fetchQuote cfg (fetchQuote cfg st0 T sym).st t sym2 =
        ⟨(fetchQuote cfg st0 T sym).result, (fetchQuote cfg st0 T sym).st,
          [], true, false, false, []⟩) ∧
    (∀ (cfg : Config) (st0 : St) (T t : ℕ) (sym sym2 : Option String)
        (interval : String) (output : ℕ),
      (fetchSeries cfg st0 T sym interval output).wrote = true →
      t < T + SERIES_TTL_MS →
      normalize sym2 = normalize sym →
      fetchSeries cfg (fetchSeries cfg st0 T sym interval output).st t sym2
          interval output =
        ⟨(fetchSeries cfg st0 T sym interval output).result,
          (fetchSeries cfg st0 T sym interval output).st, [], true, false, false, []⟩) :=
  ⟨fun cfg st0 T t sym sym2 hw ht hsym =>
      fetchQuote_cached_window cfg st0 T t sym sym2 hw ht hsym,
    fun cfg st0 T t sym sym2 interval output hw ht hsym =>
      fetchSeries_cached_window cfg st0 T t sym sym2 interval output hw ht hsym⟩

/-- Witness for `C1_cached_window`: Finnhub configured and succeeding; the
first call at time 100 writes the cache, a second call at time 200 is
answered from it with no request. -/
theorem C1_cached_window_witness :
    ((fetchQuote cfgFhGood stEmpty 100 (some "AAPL")).wrote = true ∧
      fetchQuote cfgFhGood (fetchQuote cfgFhGood stEmpty 100 (some "AAPL")).st 200
          (some "AAPL") =
        ⟨(fetchQuote cfgFhGood stEmpty 100 (some "AAPL")).result,
          (fetchQuote cfgFhGood stEmpty 100 (some "AAPL")).st,
          [], true, false, false, []⟩) ∧
    ((fetchSeries cfgFhGood stEmpty 100 (some "AAPL") "1day" 30).wrote = true ∧
      fetchSeries cfgFhGood (fetchSeries cfgFhGood stEmpty 100 (some "AAPL") "1day" 30).st
          200 (some "AAPL") "1day" 30 =
        ⟨(fetchSeries cfgFhGood stEmpty 100 (some "AAPL") "1day" 30).result,
          (fetchSeries cfgFhGood stEmpty 100 (some "AAPL") "1day" 30).st,
          [], true, false, false, []⟩) :=
  ⟨⟨by decide, C1_cached_window.1 cfgFhGood stEmpty 100 200 (some "AAPL") (some "AAPL")
      (by decide) (by decide) rfl⟩,
    ⟨by decide, C1_cached_window.2 cfgFhGood stEmpty 100 200 (some "AAPL") (some "AAPL")
      "1day" 30 (by decide) (by decide) rfl⟩⟩

/-- C2 counterexample: with Finnhub configured and the cache empty, a
`fetchQuote` call for an absent symbol performs a provider request and
returns the provider's quote — the code does not short-circuit empty
symbols with a zero-valued Quote and no network call. -/
theorem C2_counterexample :
    (fetchQuote cfgFhGood stValidated 0 none).log ≠ [] ∧
    (fetchQuote cfgFhGood stValidated 0 none).result ≠ ⟨0, 0, none⟩ := by
  decide

/-- C3 counterexample: with an expired cache entry for `quote:AC.TO`
holding price 99 and every provider unavailable, the resolver returns the
mock quote (24.50 / 24.30) rather than the stale cached value — expired
entries are never read back on total failure. -/
theorem C3_counterexample :
    (fetchQuote cfgNone stStale 1000 (some "AC.TO")).result = ⟨mkRat 49 2, mkRat 243 10, none⟩ ∧
    (fetchQuote cfgNone stStale 1000 (some "AC.TO")).result ≠ ⟨99, 98, none⟩ := by
  decide

/-- C4 counterexample: an entry written to the durable tier at time 0 with
the quote TTL is still returned by `readLS` at exactly `T + Δ` — the
durable tier's expiry test (`parsed.exp < now()`) is boundary-inclusive,
contradicting "returns null at time T+Δ or later on both tiers". -/
theorem C4_counterexample :
    readLS (writeCache ([] : SMap (Entry Quote)) [] 0 "quote:AAPL"
      ⟨1, 2, none⟩ QUOTE_TTL_MS).2 QUOTE_TTL_MS "quote:AAPL" ≠ none := by
  decide

/-- C5 counterexample: with no provider credential configured at all, a
cache-miss `fetchQuote` still records a failure in API State
(`lastError = "All providers failed for AAPL"`) while returning the mock
quote — the no-keys condition is not quieter. -/
theorem C5_counterexample :
    (fetchQuote cfgNone stEmpty 5 (some "AAPL")).st.api.lastError
      = some "All providers failed for AAPL" ∧
    (fetchQuote cfgNone stEmpty 5 (some "AAPL")).result = ⟨mkRat 5753 25, mkRat 5696 25, none⟩ := by
  decide

/-- C9 counterexample: when Finnhub reports `c = -5`, the resolution
succeeds and produces a Quote with a negative price — the code does not
enforce non-negativity. -/
theorem C9_counterexample :
    (resolveQuote cfgFhNeg stEmpty 0 (some "AAPL")).result.price < 0 ∧
    (resolveQuote cfgFhNeg stEmpty 0 (some "AAPL")).wrote = true := by
  decide

/-- C4 (amended): for a cache entry written at time `T` with TTL `Δ`
(`T + Δ > 0`), the in-memory tier returns the stored value at any time in
`[T, T+Δ)` and misses at `T+Δ` or later (boundary exclusive), while the
durable tier returns the value at any time in `[T, T+Δ]` and null only
strictly after `T+Δ` — its expiry boundary is inclusive, not exclusive. -/
theorem C4_ttl_boundary_amended (T ttl t : ℕ) (key : String) (q : Quote)
    (mem ls : SMap (Entry Quote)) (hpos : 0 < T + ttl) :
    (readCache (writeCache mem ls T key q ttl).1 [] t key).1
      = (if t < T + ttl then some q else none) ∧
    readLS (writeCache mem ls T key q ttl).2 t key
      = (if t ≤ T + ttl then some q else none) := by
  constructor
  · by_cases h : t < T + ttl
    · rw [if_pos h]
      have hf := readCache_fresh mem ([] : SMap (Entry Quote)) key q h
      simp only [writeCache, writeLS]
      rw [hf]
    · rw [if_neg h]
      simp only [writeCache, writeLS, readCache, readLS, SMap.get?_set_self]
      simp [SMap.get?, h]
  · simp only [writeCache, writeLS, readLS, SMap.get?_set_self]
    split
    · rename_i hcond
      rcases hcond with hz | hlt
      · omega
      · rw [if_neg (by omega)]
    · rename_i hcond
      rw [if_pos (by omega)]

/-- C2 (amended): absent/empty input normalizes to the empty symbol but is
not special-cased: the resolver consults the cache under the empty
fingerprint and attempts configured providers like any other non-TSX
symbol.  When no provider is configured and nothing is cached, `fetchQuote`
returns the zero Quote and `fetchSeries` the empty Series (mock data has no
entry for the empty symbol), with no network request — but via the total
failure path, not a short-circuit. -/
theorem C2_empty_symbol_amended (cfg : Config) (st : St) (t : ℕ)
    (sym : Option String) (interval : String) (output : ℕ)
    (hsym : normalize sym = "")
    (h1 : cfg.keyMS = "") (h2 : cfg.keyFH = "") (h3 : cfg.keyAV = "")
    (hmem : SMap.get? st.memQuotes ("quote:" ++ normalize sym) = none)
    (hls : SMap.get? st.lsQuotes ("quote:" ++ normalize sym) = none)
    (hmemS : SMap.get? st.memSeries
        ("series:" ++ normalize sym ++ "|" ++ interval ++ "|" ++ toString output) = none)
    (hlsS : SMap.get? st.lsSeries
        ("series:" ++ normalize sym ++ "|" ++ interval ++ "|" ++ toString output) = none) :
    (fetchQuote cfg st t sym).result = ⟨0, 0, none⟩ ∧
    (fetchQuote cfg st t sym).log = [] ∧
    (fetchSeries cfg st t sym interval output).result = ⟨[]⟩ ∧
    (fetchSeries cfg st t sym interval output).log = [] := by
  obtain ⟨hapi, hvlog, hverr⟩ := validateKeyOnce_api_no_keys st t h2 h3
  obtain ⟨hmq, hlq, hms2, hls2⟩ := validateKeyOnce_caches cfg st t
  have hrcq : (readCache (validateKeyOnce cfg st t).st.memQuotes
      (validateKeyOnce cfg st t).st.lsQuotes t ("quote:" ++ normalize sym)).1 = none := by
    rw [hmq, hlq, readCache_not_found t hmem hls]
  have hchq := quoteChain_no_keys (normalize sym) h1 h2 h3
  have hrq := resolveQuote_total_failure hrcq hchq
  have hrcs : (readCache (validateKeyOnce cfg st t).st.memSeries
      (validateKeyOnce cfg st t).st.lsSeries t
      ("series:" ++ normalize sym ++ "|" ++ interval ++ "|" ++ toString output)).1 = none := by
    rw [hms2, hls2, readCache_not_found t hmemS hlsS]
  have hchs := seriesChain_no_keys (normalize sym) output h1 h2 h3
  have hrs := resolveSeries_total_failure hrcs hchs
  refine ⟨?_, ?_, ?_, ?_⟩
  · simp only [fetchQuote, hrq, hsym]
    decide
  · simp only [fetchQuote, hrq, hvlog]
    rfl
  · simp only [fetchSeries, hrs, hsym]
    exact mockSeriesFn_unknown cfg output (by decide)
  · simp only [fetchSeries, hrs, hvlog]
    rfl

/-- Witness for `C2_empty_symbol_amended` with no keys configured, the
initial state, and an absent symbol. -/
theorem C2_empty_symbol_amended_witness :
    (fetchQuote cfgNone stEmpty 0 none).result = ⟨0, 0, none⟩ ∧
    (fetchQuote cfgNone stEmpty 0 none).log = [] ∧
    (fetchSeries cfgNone stEmpty 0 none "1day" 30).result = ⟨[]⟩ ∧
    (fetchSeries cfgNone stEmpty 0 none "1day" 30).log = [] :=
  C2_empty_symbol_amended cfgNone stEmpty 0 none "1day" 30 (by decide) rfl rfl rfl
    (by decide) (by decide) (by decide) (by decide)

/-- C3 (amended): the code has no stale-allowing cache read: on total
provider failure, the only cache variable consulted by the failure handler
is the fresh (unexpired-only) read taken at the start of the request,
which is necessarily null on every path that reaches the handler, so the
resolver always falls back to mock data; an expired cache entry is never
returned. -/
theorem C3_total_failure_mock_amended (cfg : Config) (st : St) (t : ℕ)
    (sym : Option String) (interval : String) (output : ℕ)
    (hfq : (resolveQuote cfg st t sym).failed = true)
    (hfs : (resolveSeries cfg st t sym interval output).failed = true) :
    (resolveQuote cfg st t sym).result = mockQuoteFn (normalize sym) ∧
    (resolveSeries cfg st t sym interval output).result
      = mockSeriesFn cfg (normalize sym) output := by
  constructor
  · rcases hrc : (readCache st.memQuotes st.lsQuotes t ("quote:" ++ normalize sym)).1
      with _ | c
    · rcases hch : quoteChain cfg (normalize sym) with ⟨log, d⟩
      rcases d with _ | d
      · rw [resolveQuote_total_failure hrc hch]
      · rw [resolveQuote_success hrc hch] at hfq
        simp at hfq
    · rw [resolveQuote_hit hrc] at hfq
      simp at hfq
  · rcases hrc : (readCache st.memSeries st.lsSeries t
        ("series:" ++ normalize sym ++ "|" ++ interval ++ "|" ++ toString output)).1
      with _ | c
    · rcases hch : seriesChain cfg (normalize sym) output with ⟨log, d⟩
      rcases d with _ | d
      · rw [resolveSeries_total_failure hrc hch]
      · rw [resolveSeries_success hrc hch] at hfs
        simp at hfs
    · rw [resolveSeries_hit hrc] at hfs
      simp at hfs

/-- Witness for `C3_total_failure_mock_amended`: no providers configured,
stale entry for `quote:AC.TO` in both tiers, request at time 1000. -/
theorem C3_total_failure_mock_amended_witness :
    (resolveQuote cfgNone stStale 1000 (some "AC.TO")).result
      = mockQuoteFn (normalize (some "AC.TO")) ∧
    (resolveSeries cfgNone stStale 1000 (some "AC.TO") "1day" 30).result
      = mockSeriesFn cfgNone (normalize (some "AC.TO")) 30 :=
  C3_total_failure_mock_amended cfgNone stStale 1000 (some "AC.TO") "1day" 30
    (by decide) (by decide)

/-- C5 (amended): a total failure records `lastError` in API State
regardless of whether any credentialed provider was attempted: with no
credentials configured at all, a cache-miss request performs no network
call, returns mock data, and still records "All providers failed" — the
resolver does not signal the no-keys condition separately. -/
theorem C5_no_keys_amended (cfg : Config) (st : St) (t : ℕ) (sym : Option String)
    (h1 : cfg.keyMS = "") (h2 : cfg.keyFH = "") (h3 : cfg.keyAV = "")
    (hmem : SMap.get? st.memQuotes ("quote:" ++ normalize sym) = none)
    (hls : SMap.get? st.lsQuotes ("quote:" ++ normalize sym) = none) :
    (fetchQuote cfg st t sym).result = mockQuoteFn (normalize sym) ∧
    (fetchQuote cfg st t sym).st.api.lastError
      = some ("All providers failed for " ++ normalize sym) ∧
    (fetchQuote cfg st t sym).log = [] := by
  obtain ⟨hapi, hvlog, hverr⟩ := validateKeyOnce_api_no_keys st t h2 h3
  obtain ⟨hmq, hlq, hms2, hls2⟩ := validateKeyOnce_caches cfg st t
  have hrcq : (readCache (validateKeyOnce cfg st t).st.memQuotes
      (validateKeyOnce cfg st t).st.lsQuotes t ("quote:" ++ normalize sym)).1 = none := by
    rw [hmq, hlq, readCache_not_found t hmem hls]
  have hchq := quoteChain_no_keys (normalize sym) h1 h2 h3
  have hrq := resolveQuote_total_failure hrcq hchq
  refine ⟨?_, ?_, ?_⟩
  · simp only [fetchQuote, hrq]
  · simp only [fetchQuote, hrq]
    rw [hapi, applyError_lastError st.api t (allFailedMsg_ne_empty (normalize sym))]
  · simp only [fetchQuote, hrq, hvlog]
    rfl

/-- Witness for `C5_no_keys_amended`: no keys, empty state, "AAPL". -/
theorem C5_no_keys_amended_witness :
    (fetchQuote cfgNone stEmpty 5 (some "AAPL")).result
      = mockQuoteFn (normalize (some "AAPL")) ∧
    (fetchQuote cfgNone stEmpty 5 (some "AAPL")).st.api.lastError
      = some ("All providers failed for " ++ normalize (some "AAPL")) ∧
    (fetchQuote cfgNone stEmpty 5 (some "AAPL")).log = [] :=
  C5_no_keys_amended cfgNone stEmpty 5 (some "AAPL") rfl rfl rfl (by decide) (by decide)

/-- C6: for every symbol whose canonical form ends in ".TO", the resolver
requests at most Marketstack then Alpha Vantage, in that order; it never
requests Finnhub; a provider whose credential is absent is skipped without
a request; and on a cache miss with the Marketstack key configured, the
first request goes to Marketstack. -/
theorem C6_tsx_routing (cfg : Config) (st : St) (t : ℕ) (sym : Option String)
    (htsx : strEndsWith (normalize sym) ".TO" = true) :
    ((resolveQuote cfg st t sym).log.map Req.provider ∈
      ([[], [Provider.ms], [Provider.av], [Provider.ms, Provider.av]] :
        List (List Provider))) ∧
    (Provider.fh ∉ (resolveQuote cfg st t sym).log.map Req.provider) ∧
    (cfg.keyMS = "" → Provider.ms ∉ (resolveQuote cfg st t sym).log.map Req.provider) ∧
    (cfg.keyAV = "" → Provider.av ∉ (resolveQuote cfg st t sym).log.map Req.provider) ∧
    ((resolveQuote cfg st t sym).hit = false → cfg.keyMS ≠ "" →
      ((resolveQuote cfg st t sym).log.map Req.provider).head? = some Provider.ms) := by
  obtain ⟨hmem, hms, hav, hfh, hhead⟩ := quoteChain_tsx cfg htsx
  rcases hrc : (readCache st.memQuotes st.lsQuotes t ("quote:" ++ normalize sym)).1
    with _ | c
  · rcases hch : quoteChain cfg (normalize sym) with ⟨log, d⟩
    rw [hch] at hmem hms hav hfh hhead
    rcases d with _ | d
    · rw [resolveQuote_total_failure hrc hch]
      exact ⟨hmem, hfh, hms, hav, fun _ => hhead⟩
    · rw [resolveQuote_success hrc hch]
      exact ⟨hmem, hfh, hms, hav, fun _ => hhead⟩
  · rw [resolveQuote_hit hrc]
    refine ⟨by simp, by simp, fun _ => by simp, fun _ => by simp, ?_⟩
    intro h
    simp at h

/-- Witness for `C6_tsx_routing`: Marketstack and Alpha Vantage configured,
both failing, symbol "AC.TO", empty cache. -/
theorem C6_tsx_routing_witness :
    ((resolveQuote cfgMsAv stEmpty 0 (some "AC.TO")).log.map Req.provider ∈
      ([[], [Provider.ms], [Provider.av], [Provider.ms, Provider.av]] :
        List (List Provider))) ∧
    (Provider.fh ∉ (resolveQuote cfgMsAv stEmpty 0 (some "AC.TO")).log.map Req.provider) ∧
    (cfgMsAv.keyMS = "" →
      Provider.ms ∉ (resolveQuote cfgMsAv stEmpty 0 (some "AC.TO")).log.map Req.provider) ∧
    (cfgMsAv.keyAV = "" →
      Provider.av ∉ (resolveQuote cfgMsAv stEmpty 0 (some "AC.TO")).log.map Req.provider) ∧
    ((resolveQuote cfgMsAv stEmpty 0 (some "AC.TO")).hit = false → cfgMsAv.keyMS ≠ "" →
      ((resolveQuote cfgMsAv stEmpty 0 (some "AC.TO")).log.map Req.provider).head?
        = some Provider.ms) :=
  C6_tsx_routing cfgMsAv stEmpty 0 (some "AC.TO") (by decide)

/-- C7: with Marketstack the sole configured provider and its response
body malformed (missing `data` array), `fetchQuote("AC.TO")` returns the
documented mock quote (price 24.50, previous close 24.30), afterwards
`ApiState.lastError` is non-null and `ApiState.invalidKey` is unchanged
(the failure is not a key problem); for a TSX symbol unknown to mock data
the zero quote is returned. -/
theorem C7_sole_provider_malformed (cfg : Config) (st : St) (t : ℕ)
    (hms : cfg.keyMS ≠ "") (hfh : cfg.keyFH = "") (hav : cfg.keyAV = "")
    (hbad1 : cfg.msQuoteResp "AC.XTSE" = .ok ⟨none, none⟩)
    (hbad2 : cfg.msQuoteResp "ZZZ.XTSE" = .ok ⟨none, none⟩)
    (hm1 : SMap.get? st.memQuotes "quote:AC.TO" = none)
    (hl1 : SMap.get? st.lsQuotes "quote:AC.TO" = none)
    (hm2 : SMap.get? st.memQuotes "quote:ZZZ.TO" = none)
    (hl2 : SMap.get? st.lsQuotes "quote:ZZZ.TO" = none) :
    (fetchQuote cfg st t (some "AC.TO")).result = ⟨mkRat 49 2, mkRat 243 10, none⟩ ∧
    (fetchQuote cfg st t (some "AC.TO")).st.api.lastError ≠ none ∧
    (fetchQuote cfg st t (some "AC.TO")).st.api.invalidKey = st.api.invalidKey ∧
    (fetchQuote cfg st t (some "ZZZ.TO")).result = ⟨0, 0, none⟩ := by
  obtain ⟨hapi, hvlog, hverr⟩ := validateKeyOnce_api_no_keys st t hfh hav
  obtain ⟨hmq, hlq, hms2, hls2⟩ := validateKeyOnce_caches cfg st t
  have hn1 : normalize (some "AC.TO") = "AC.TO" := by decide
  have hn2 : normalize (some "ZZZ.TO") = "ZZZ.TO" := by decide
  have hchain1 : quoteChain cfg (normalize (some "AC.TO"))
      = ([⟨.ms, .quote, "AC.XTSE"⟩], none) := by
    rw [hn1]
    unfold quoteChain msFetchQuote
    have hrep : replaceFirst "AC.TO" ".TO" ".XTSE" = "AC.XTSE" := by decide
    simp [show strEndsWith "AC.TO" ".TO" = true from by decide, hms, hrep, hbad1, hav,
      tryQuote]
  have hchain2 : quoteChain cfg (normalize (some "ZZZ.TO"))
      = ([⟨.ms, .quote, "ZZZ.XTSE"⟩], none) := by
    rw [hn2]
    unfold quoteChain msFetchQuote
    have hrep : replaceFirst "ZZZ.TO" ".TO" ".XTSE" = "ZZZ.XTSE" := by decide
    simp [show strEndsWith "ZZZ.TO" ".TO" = true from by decide, hms, hrep, hbad2, hav,
      tryQuote]
  have hrc1 : (readCache (validateKeyOnce cfg st t).st.memQuotes
      (validateKeyOnce cfg st t).st.lsQuotes t ("quote:" ++ normalize (some "AC.TO"))).1
      = none := by
    rw [hmq, hlq, show ("quote:" ++ normalize (some "AC.TO")) = "quote:AC.TO" from by decide,
      readCache_not_found t hm1 hl1]
  have hrc2 : (readCache (validateKeyOnce cfg st t).st.memQuotes
      (validateKeyOnce cfg st t).st.lsQuotes t ("quote:" ++ normalize (some "ZZZ.TO"))).1
      = none := by
    rw [hmq, hlq, show ("quote:" ++ normalize (some "ZZZ.TO")) = "quote:ZZZ.TO" from by decide,
      readCache_not_found t hm2 hl2]
  have htot1 := resolveQuote_total_failure hrc1 hchain1
  have htot2 := resolveQuote_total_failure hrc2 hchain2
  refine ⟨?_, ?_, ?_, ?_⟩
  · simp only [fetchQuote, htot1, hn1]
    decide
  · simp only [fetchQuote, htot1]
    rw [applyError_lastError _ _ (allFailedMsg_ne_empty _)]
    simp
  · simp only [fetchQuote, htot1, hn1]
    rw [applyError_invalidKey _ _ (allFailedMsg_ne_empty _) (by decide), hapi]
  · simp only [fetchQuote, htot2, hn2]
    decide

/-- C8: within one resolver request API State is mutated exactly once on
the failure path — `setError` runs once, setting `lastError` and
`lastErrorAt`, and `invalidKey` becomes true exactly when it already was
or the failure message mentions "invalid api key" — and is untouched on
every non-failure path (cache hit or provider success); likewise the
one-time validation probe mutates API State exactly once when and only
when it fails. -/
theorem C8_api_state_contract (cfg : Config) (st : St) (t : ℕ) (sym : Option String)
    (interval : String) (output : ℕ) :
    ((resolveQuote cfg st t sym).failed = false →
        (resolveQuote cfg st t sym).st.api = st.api ∧
        (resolveQuote cfg st t sym).errMsgs = []) ∧
    ((resolveQuote cfg st t sym).failed = true →
        (resolveQuote cfg st t sym).errMsgs
            = ["All providers failed for " ++ normalize sym] ∧
        (resolveQuote cfg st t sym).st.api.lastError
            = some ("All providers failed for " ++ normalize sym) ∧
        (resolveQuote cfg st t sym).st.api.lastErrorAt = t ∧
        (resolveQuote cfg st t sym).st.api.invalidKey
            = (st.api.invalidKey
                || mentionsInvalidKey ("All providers failed for " ++ normalize sym))) ∧
    ((resolveSeries cfg st t sym interval output).failed = false →
        (resolveSeries cfg st t sym interval output).st.api = st.api ∧
        (resolveSeries cfg st t sym interval output).errMsgs = []) ∧
    ((resolveSeries cfg st t sym interval output).failed = true →
        (resolveSeries cfg st t sym interval output).errMsgs
            = ["All providers failed for " ++ normalize sym] ∧
        (resolveSeries cfg st t sym interval output).st.api.lastError
            = some ("All providers failed for " ++ normalize sym) ∧
        (resolveSeries cfg st t sym interval output).st.api.lastErrorAt = t ∧
        (resolveSeries cfg st t sym interval output).st.api.invalidKey
            = (st.api.invalidKey
                || mentionsInvalidKey ("All providers failed for " ++ normalize sym))) ∧
    ((validateKeyOnce cfg st t).errMsgs = [] →
        (validateKeyOnce cfg st t).st.api = st.api) ∧
    ((validateKeyOnce cfg st t).errMsgs ≠ [] →
        (validateKeyOnce cfg st t).errMsgs.length = 1 ∧
        (validateKeyOnce cfg st t).st.api
          = applyError st.api t ((validateKeyOnce cfg st t).errMsgs.headD "")) := by
  have hquote : ((resolveQuote cfg st t sym).failed = false →
      (resolveQuote cfg st t sym).st.api = st.api ∧
      (resolveQuote cfg st t sym).errMsgs = []) ∧
      ((resolveQuote cfg st t sym).failed = true →
      (resolveQuote cfg st t sym).errMsgs
          = ["All providers failed for " ++ normalize sym] ∧
      (resolveQuote cfg st t sym).st.api.lastError
          = some ("All providers failed for " ++ normalize sym) ∧
      (resolveQuote cfg st t sym).st.api.lastErrorAt = t ∧
      (resolveQuote cfg st t sym).st.api.invalidKey
          = (st.api.invalidKey
              || mentionsInvalidKey ("All providers failed for " ++ normalize sym))) := by
    rcases hrc : (readCache st.memQuotes st.lsQuotes t ("quote:" ++ normalize sym)).1
      with _ | c
    · rcases hch : quoteChain cfg (normalize sym) with ⟨log, d⟩
      rcases d with _ | d
      · rw [resolveQuote_total_failure hrc hch]
        refine ⟨fun h => by simp at h, fun _ => ⟨rfl, ?_, ?_, ?_⟩⟩
        · exact applyError_lastError _ _ (allFailedMsg_ne_empty _)
        · exact applyError_lastErrorAt _ _ _
        · exact applyError_invalidKey_or _ _ (allFailedMsg_ne_empty _)
      · rw [resolveQuote_success hrc hch]
        exact ⟨fun _ => ⟨rfl, rfl⟩, fun h => by simp at h⟩
    · rw [resolveQuote_hit hrc]
      exact ⟨fun _ => ⟨rfl, rfl⟩, fun h => by simp at h⟩
  have hseries : ((resolveSeries cfg st t sym interval output).failed = false →
      (resolveSeries cfg st t sym interval output).st.api = st.api ∧
      (resolveSeries cfg st t sym interval output).errMsgs = []) ∧
      ((resolveSeries cfg st t sym interval output).failed = true →
      (resolveSeries cfg st t sym interval output).errMsgs
          = ["All providers failed for " ++ normalize sym] ∧
      (resolveSeries cfg st t sym interval output).st.api.lastError
          = some ("All providers failed for " ++ normalize sym) ∧
      (resolveSeries cfg st t sym interval output).st.api.lastErrorAt = t ∧
      (resolveSeries cfg st t sym interval output).st.api.invalidKey
          = (st.api.invalidKey
              || mentionsInvalidKey ("All providers failed for " ++ normalize sym))) := by
    rcases hrc : (readCache st.memSeries st.lsSeries t
        ("series:" ++ normalize sym ++ "|" ++ interval ++ "|" ++ toString output)).1
      with _ | c
    · rcases hch : seriesChain cfg (normalize sym) output with ⟨log, d⟩
      rcases d with _ | d
      · rw [resolveSeries_total_failure hrc hch]
        refine ⟨fun h => by simp at h, fun _ => ⟨rfl, ?_, ?_, ?_⟩⟩
        · exact applyError_lastError _ _ (allFailedMsg_ne_empty _)
        · exact applyError_lastErrorAt _ _ _
        · exact applyError_invalidKey_or _ _ (allFailedMsg_ne_empty _)
      · rw [resolveSeries_success hrc hch]
        exact ⟨fun _ => ⟨rfl, rfl⟩, fun h => by simp at h⟩
    · rw [resolveSeries_hit hrc]
      exact ⟨fun _ => ⟨rfl, rfl⟩, fun h => by simp at h⟩
  have hvalid : ((validateKeyOnce cfg st t).errMsgs = [] →
      (validateKeyOnce cfg st t).st.api = st.api) ∧
      ((validateKeyOnce cfg st t).errMsgs ≠ [] →
      (validateKeyOnce cfg st t).errMsgs.length = 1 ∧
      (validateKeyOnce cfg st t).st.api
        = applyError st.api t ((validateKeyOnce cfg st t).errMsgs.headD "")) := by
    unfold validateKeyOnce
    by_cases h : st.validated
    · simp [h]
    · simp only [h, Bool.false_eq_true, if_false]
      split
      · simp
      · simp
      · refine ⟨fun hx => by simp at hx, fun _ => ⟨rfl, rfl⟩⟩
  exact ⟨hquote.1, hquote.2, hseries.1, hseries.2, hvalid.1, hvalid.2⟩

/-- Witness for `C8_api_state_contract`: with no keys and an empty cache
the quote request fails, and the contract yields the exact API-state
mutation. -/
theorem C8_api_state_contract_witness :
    (resolveQuote cfgNone stEmpty 7 (some "AAPL")).failed = true ∧
    ((resolveQuote cfgNone stEmpty 7 (some "AAPL")).errMsgs
        = ["All providers failed for " ++ normalize (some "AAPL")] ∧
      (resolveQuote cfgNone stEmpty 7 (some "AAPL")).st.api.lastError
        = some ("All providers failed for " ++ normalize (some "AAPL")) ∧
      (resolveQuote cfgNone stEmpty 7 (some "AAPL")).st.api.lastErrorAt = 7 ∧
      (resolveQuote cfgNone stEmpty 7 (some "AAPL")).st.api.invalidKey
        = (stEmpty.api.invalidKey
            || mentionsInvalidKey ("All providers failed for " ++ normalize (some "AAPL")))) :=
  ⟨by decide,
    (C8_api_state_contract cfgNone stEmpty 7 (some "AAPL") "1day" 30).2.1 (by decide)⟩

/-- Witness for `C7_sole_provider_malformed`: the fixture with only the
Marketstack key set and every body malformed, from the empty state. -/
theorem C7_sole_provider_malformed_witness :
    (fetchQuote cfgMsMalformed stEmpty 0 (some "AC.TO")).result
      = ⟨mkRat 49 2, mkRat 243 10, none⟩ ∧
    (fetchQuote cfgMsMalformed stEmpty 0 (some "AC.TO")).st.api.lastError ≠ none ∧
    (fetchQuote cfgMsMalformed stEmpty 0 (some "AC.TO")).st.api.invalidKey
      = stEmpty.api.invalidKey ∧
    (fetchQuote cfgMsMalformed stEmpty 0 (some "ZZZ.TO")).result = ⟨0, 0, none⟩ :=
  C7_sole_provider_malformed cfgMsMalformed stEmpty 0 (by decide) rfl rfl rfl rfl
    rfl rfl rfl rfl

/-- C9 (amended): every Quote produced by resolution is finite by
construction (the adapters coerce non-finite provider numbers to 0), and
`price`/`previousClose` are non-negative provided every numeric field the
providers report for the symbol is non-negative after that coercion; the
code itself does not enforce non-negativity, so a provider-reported
negative value is passed through verbatim. -/
theorem C9_nonneg_amended (cfg : Config) (st : St) (t : ℕ) (sym : Option String)
    (hms : msRespNonneg (cfg.msQuoteResp (replaceFirst (normalize sym) ".TO" ".XTSE"))
      = true)
    (hfh : fhRespNonneg (cfg.fhQuoteResp (normalize sym)) = true)
    (hav : avRespNonneg (cfg.avQuoteResp (normalize sym)) = true)
    (hhit : (resolveQuote cfg st t sym).hit = false) :
    0 ≤ (resolveQuote cfg st t sym).result.price ∧
    0 ≤ (resolveQuote cfg st t sym).result.previous_close := by
  rcases hrc : (readCache st.memQuotes st.lsQuotes t ("quote:" ++ normalize sym)).1
    with _ | c
  · rcases hch : quoteChain cfg (normalize sym) with ⟨log, d⟩
    rcases d with _ | d
    · rw [resolveQuote_total_failure hrc hch]
      exact mockQuoteFn_nonneg _
    · rw [resolveQuote_success hrc hch]
      obtain ⟨h1, h2⟩ := quoteChain_nonneg hch hms hfh hav
      exact ⟨jsOr_nonneg h1, jsOr_nonneg h2⟩
  · rw [resolveQuote_hit hrc] at hhit
    simp at hhit

/-- Witness for `C9_nonneg_amended`: Finnhub reporting 5 / 4, every other
provider failing, empty cache. -/
theorem C9_nonneg_amended_witness :
    msRespNonneg (cfgFhGood.msQuoteResp
        (replaceFirst (normalize (some "AAPL")) ".TO" ".XTSE")) = true ∧
    fhRespNonneg (cfgFhGood.fhQuoteResp (normalize (some "AAPL"))) = true ∧
    avRespNonneg (cfgFhGood.avQuoteResp (normalize (some "AAPL"))) = true ∧
    (resolveQuote cfgFhGood stEmpty 0 (some "AAPL")).hit = false ∧
    (0 ≤ (resolveQuote cfgFhGood stEmpty 0 (some "AAPL")).result.price ∧
      0 ≤ (resolveQuote cfgFhGood stEmpty 0 (some "AAPL")).result.previous_close) :=
  ⟨by decide, by decide, by decide, by decide,
    C9_nonneg_amended cfgFhGood stEmpty 0 (some "AAPL") (by decide) (by decide)
      (by decide) (by decide)⟩

/-- C10: in every process the first invocation of `fetchQuote` or
`fetchSeries` performs the credential-validation quote request for the
fixed symbol "AAPL" — exactly one, via Finnhub if its key is configured,
else Alpha Vantage, else no request — as a prefix of its request sequence
(before resolving), even when the requested symbol is empty or already
cached; every invocation leaves the `validated` flag set, and any
invocation from a validated state equals the plain resolution, so no later
invocation repeats the validation. -/
theorem C10_validate_once :
    (∀ cfg : Config,
      (cfg.keyFH ≠ "" → specValidationRequest cfg = [⟨.fh, .quote, "AAPL"⟩]) ∧
      (cfg.keyFH = "" → cfg.keyAV ≠ "" →
        specValidationRequest cfg = [⟨.av, .quote, "AAPL"⟩]) ∧
      (cfg.keyFH = "" → cfg.keyAV = "" → specValidationRequest cfg = [])) ∧
    (∀ (cfg : Config) (st : St) (t : ℕ) (sym : Option String),
      st.validated = false →
      (fetchQuote cfg st t sym).log.take (specValidationRequest cfg).length
          = specValidationRequest cfg ∧
      (fetchQuote cfg st t sym).log.drop (specValidationRequest cfg).length
          = (resolveQuote cfg (validateKeyOnce cfg st t).st t sym).log) ∧
    (∀ (cfg : Config) (st : St) (t : ℕ) (sym : Option String) (interval : String)
        (output : ℕ),
      st.validated = false →
      (fetchSeries cfg st t sym interval output).log.take
          (specValidationRequest cfg).length = specValidationRequest cfg ∧
      (fetchSeries cfg st t sym interval output).log.drop
          (specValidationRequest cfg).length
          = (resolveSeries cfg (validateKeyOnce cfg st t).st t sym interval output).log) ∧
    (∀ (cfg : Config) (st : St) (t : ℕ) (sym : Option String),
      (fetchQuote cfg st t sym).st.validated = true) ∧
    (∀ (cfg : Config) (st : St) (t : ℕ) (sym : Option String) (interval : String)
        (output : ℕ),
      (fetchSeries cfg st t sym interval output).st.validated = true) ∧
    (∀ (cfg : Config) (st : St) (t : ℕ) (sym : Option String),
      st.validated = true → fetchQuote cfg st t sym = resolveQuote cfg st t sym) ∧
    (∀ (cfg : Config) (st : St) (t : ℕ) (sym : Option String) (interval : String)
        (output : ℕ),
      st.validated = true →
      fetchSeries cfg st t sym interval output
        = resolveSeries cfg st t sym interval output) := by
  refine ⟨?_, ?_, ?_, ?_, ?_, ?_, ?_⟩
  · intro cfg
    unfold specValidationRequest
    refine ⟨fun h => by simp [h], fun h1 h2 => by simp [h1, h2], fun h1 h2 => by simp [h1, h2]⟩
  · intro cfg st t sym h
    have hlog := validateKeyOnce_log_first cfg t h
    have hfq : (fetchQuote cfg st t sym).log
        = (validateKeyOnce cfg st t).log
          ++ (resolveQuote cfg (validateKeyOnce cfg st t).st t sym).log := rfl
    rw [hfq, hlog]
    exact ⟨List.take_left _ _, List.drop_left _ _⟩
  · intro cfg st t sym interval output h
    have hlog := validateKeyOnce_log_first cfg t h
    have hfq : (fetchSeries cfg st t sym interval output).log
        = (validateKeyOnce cfg st t).log
          ++ (resolveSeries cfg (validateKeyOnce cfg st t).st t sym interval output).log :=
      rfl
    rw [hfq, hlog]
    exact ⟨List.take_left _ _, List.drop_left _ _⟩
  · intro cfg st t sym
    have hst : (fetchQuote cfg st t sym).st
        = (resolveQuote cfg (validateKeyOnce cfg st t).st t sym).st := rfl
    rw [hst, resolveQuote_validated]
    exact validateKeyOnce_validated cfg st t
  · intro cfg st t sym interval output
    have hst : (fetchSeries cfg st t sym interval output).st
        = (resolveSeries cfg (validateKeyOnce cfg st t).st t sym interval output).st := rfl
    rw [hst, resolveSeries_validated]
    exact validateKeyOnce_validated cfg st t
  · intro cfg st t sym h
    exact fetchQuote_of_validated t sym h
  · intro cfg st t sym interval output h
    exact fetchSeries_of_validated t sym interval output h

/-- Witness for `C10_validate_once`: Finnhub configured; the first call
from the fresh state leads with the AAPL probe, and a validated-state call
is the plain resolution. -/
theorem C10_validate_once_witness :
    (specValidationRequest cfgFhGood = [⟨.fh, .quote, "AAPL"⟩]) ∧
    ((fetchQuote cfgFhGood stEmpty 3 (some "MSFT")).log.take
        (specValidationRequest cfgFhGood).length = specValidationRequest cfgFhGood) ∧
    (fetchQuote cfgFhGood stEmpty 3 (some "MSFT")).st.validated = true ∧
    fetchQuote cfgFhGood stValidated 3 (some "MSFT")
      = resolveQuote cfgFhGood stValidated 3 (some "MSFT") :=
  ⟨(C10_validate_once.1 cfgFhGood).1 (by decide),
    ((C10_validate_once.2.1) cfgFhGood stEmpty 3 (some "MSFT") rfl).1,
    C10_validate_once.2.2.2.1 cfgFhGood stEmpty 3 (some "MSFT"),
    C10_validate_once.2.2.2.2.2.1 cfgFhGood stValidated 3 (some "MSFT") rfl⟩

/-- Witness for `C4_ttl_boundary_amended` at `T = 0`, `Δ = 100`,
`t = 100`. -/
theorem C4_ttl_boundary_amended_witness :
    0 < 0 + 100 ∧
    ((readCache (writeCache ([] : SMap (Entry Quote)) [] 0 "k" ⟨1, 2, none⟩ 100).1
        [] 100 "k").1 = (if 100 < 0 + 100 then some ⟨1, 2, none⟩ else none) ∧
      readLS (writeCache ([] : SMap (Entry Quote)) [] 0 "k" ⟨1, 2, none⟩ 100).2 100 "k"
        = (if 100 ≤ 0 + 100 then some ⟨1, 2, none⟩ else none)) :=
  ⟨by decide, C4_ttl_boundary_amended 0 100 100 "k" ⟨1, 2, none⟩ [] [] (by decide)⟩

end Twelve
